import Mathlib

/-!
Verification of the A/B-testing core of the `v1` repository: the visitor
bucketing/assignment protocol (`apps/app/src/app/api/bucket/[testId]/route.ts`),
the event-tracking endpoint, and the statistical engine
(`packages/lib/src/stats.ts`), shallowly embedded in Lean 4.

Modelling conventions:
* JavaScript numbers are modelled as `ℝ` in the statistics engine (where the
  source computes with `Math.sqrt`/`Math.exp`/`Math.log`) and as `ℚ`/`ℕ`/`ℤ`
  in the request handlers (where every quantity the handlers branch on is
  rational).  `Math.ceil` is `Int.ceil`.
* Each Supabase query performed by a handler is an explicit input (an oracle
  value describing what the database returned), so racy schedules are expressed
  by choosing the oracle values independently.  The list of write operations a
  handler performs is returned alongside its response.
* `normalInverseCDF` returns `±Infinity` for out-of-range `p` in the source;
  the guarded function returns a value of the three-constructor type `RInf`,
  and the in-range arithmetic core is `normalInverseCDFcore`.
-/

namespace V1

/-! ## Data model: variants, statuses, persistence errors
(from `supabase/migrations/20241214000000_ab_testing.sql` and the route files) -/

/-- Lifecycle status of a test, per the `status` CHECK constraint of the
`tests` table and `testStatusSchema`. -/
inductive TestStatus
  | draft
  | active
  | paused
  | completed
deriving DecidableEq, Repr

/-- One row of the `variants` table as selected by the bucketing route:
`id, name, weight, discount_code, price_modifier_cents`.  The id is an opaque
string (a uuid in the source); `weight` is a database INTEGER constrained to
`[0, 100]`. -/
structure Variant where
  id : String
  name : String
  weight : ℕ
  discount_code : Option String
  price_modifier_cents : Option ℤ
deriving DecidableEq, Repr

/-- A PostgREST error as surfaced by supabase-js: the handler only ever
inspects its `code` string. -/
structure PgError where
  code : String
deriving DecidableEq, Repr

/-- Outcome of a `.single()` query: either an error (any database failure,
including the "no rows" error PostgREST returns for an absent row) or a row. -/
inductive Lookup (α : Type) where
  | err (e : PgError)
  | row (a : α)
deriving DecidableEq, Repr

/-- The `tests` row joined with its variants, as selected by the bucketing
GET handler. -/
structure TestRow where
  status : TestStatus
  variants : List Variant
deriving DecidableEq, Repr

/-! ## Weighted random selection (route.ts lines 138-150)

The source draws `random = Math.random() * totalWeight`, then walks the
variants accumulating weight and breaks at the first variant with
`random <= cumulative`; `selectedVariant` is initialised to `variants[0]` so
that it stays the first variant when the loop never breaks. -/

/-- Total weight `variants.reduce((sum, v) => sum + v.weight, 0)`. -/
def totalWeight (variants : List Variant) : ℕ :=
  variants.foldl (fun sum v => sum + v.weight) 0

/-- The selection loop: `cumulative` accumulates weights in order and the
first variant with `random <= cumulative` is selected; if no variant is
selected the initial `selected` value (the head of the list) is kept. -/
def selectLoop (vs : List Variant) (random : ℚ) (cumulative : ℚ)
    (selected : Variant) : Variant :=
  match vs with
  | [] => selected
  | v :: rest =>
      if random ≤ cumulative + (v.weight : ℚ) then v
      else selectLoop rest random (cumulative + (v.weight : ℚ)) selected

/-- Weighted selection over a non-empty variant list `v0 :: rest` with draw
`random`, exactly as the source: start from `cumulative = 0` and default
`selectedVariant = variants[0]`. -/
def selectVariant (v0 : Variant) (rest : List Variant) (random : ℚ) : Variant :=
  selectLoop (v0 :: rest) random 0 v0

/-! ## Bucketing GET handler (route.ts lines 53-223) -/

/-- The JSON body of a successful bucketing response. -/
structure BucketSuccess where
  variant_id : String
  variant_name : String
  discount_code : Option String
  price_modifier_cents : Option ℤ
  is_new_assignment : Bool
deriving DecidableEq, Repr

/-- Responses of the bucketing GET handler, each tagged with the HTTP status
the source returns with it. -/
inductive BucketResponse where
  | ok (body : BucketSuccess)
  | testNotFound
  | testNotActive (status : TestStatus)
  | noVariants
  | assignmentFailed
deriving DecidableEq, Repr

/-- HTTP status code attached to each response in the source. -/
def BucketResponse.httpStatus : BucketResponse → ℕ
  | .ok _ => 200
  | .testNotFound => 404
  | .testNotActive _ => 400
  | .noVariants => 400
  | .assignmentFailed => 500

/-- Write/read operations the handler performs against the assignments table
after the initial lookups: the optimistic insert and the conflict re-read. -/
inductive AssignOp where
  | insert (variantId : String)
  | reRead
deriving DecidableEq, Repr

/-- Builds the success body from a joined variant row. -/
def variantBody (v : Variant) (isNew : Bool) : BucketSuccess :=
  { variant_id := v.id
    variant_name := v.name
    discount_code := v.discount_code
    price_modifier_cents := v.price_modifier_cents
    is_new_assignment := isNew }

/-- The bucketing GET handler after input validation, with each database
result supplied as an oracle value:
`testLookup` is the joined test row (or any query error), `existing` the
variant joined to the visitor's current assignment row (if any — the source
ignores the error of this query and reads only `data`), `draw` the value of
`Math.random() * totalWeight`, `insertError` the error of the assignment
insert (if it failed), and `reRead` the re-fetched assignment after a
uniqueness conflict.  Returns the response together with the list of
assignment-table operations performed. -/
def resolveAssignment (testLookup : Lookup TestRow) (existing : Option Variant)
    (draw : ℚ) (insertError : Option PgError) (reRead : Option Variant) :
    BucketResponse × List AssignOp :=
  match testLookup with
  | .err _ => (.testNotFound, [])
  | .row test =>
      if test.status ≠ TestStatus.active then
        (.testNotActive test.status, [])
      else
        match existing with
        | some v => (.ok (variantBody v false), [])
        | none =>
            match test.variants with
            | [] => (.noVariants, [])
            | v0 :: rest =>
                let selected := selectVariant v0 rest draw
                match insertError with
                | none => (.ok (variantBody selected true), [.insert selected.id])
                | some e =>
                    if e.code = "23505" then
                      match reRead with
                      | some v =>
                          (.ok (variantBody v false), [.insert selected.id, .reRead])
                      | none => (.assignmentFailed, [.insert selected.id, .reRead])
                    else
                      (.assignmentFailed, [.insert selected.id])

/-- Database semantics of an assignment-table operation for one fixed
`(test, visitor)` pair: the UNIQUE(test_id, visitor_id) constraint rejects an
insert when a row already exists, and no operation of the handler deletes or
updates a row. -/
def applyAssignOp (store : Option String) : AssignOp → Option String
  | .insert vid => match store with
      | none => some vid
      | some existing => some existing
  | .reRead => store

/-- Cumulative weight of the first `i` variants of the list, as a rational
(the value of the source's `cumulative` accumulator after `i` iterations). -/
def cumWeight (vs : List Variant) (i : ℕ) : ℚ :=
  ((vs.take i).map fun v => (v.weight : ℚ)).sum

/-! ## Event tracking POST handler (the `/api/track` route)

The rate limiter, the content-length check and the CORS headers are external
concerns (spec §1) and are not modelled; the handler is modelled from the JSON
body on.  Identifiers are opaque strings (the zod uuid-format check on
`test_id`/`variant_id` is not modelled).  The JSON number in `revenue_cents`
is modelled as `ℚ` so that the schema's `.int().min(0)` check is meaningful. -/

/-- Event kind, per `eventTypeSchema`. -/
inductive EventType
  | view
  | add_to_cart
  | purchase
deriving DecidableEq, Repr

/-- One event of a track request body, before validation. -/
structure TrackEventInput where
  test_id : String
  variant_id : String
  visitor_id : String
  event_type : EventType
  product_id : Option String
  order_id : Option String
  revenue_cents : Option ℚ
deriving DecidableEq, Repr

/-- The `trackEventSchema` checks modelled here: `visitor_id` non-empty and
`revenue_cents`, when present, a non-negative integer. -/
def eventSchemaValid (e : TrackEventInput) : Bool :=
  e.visitor_id ≠ "" &&
    (match e.revenue_cents with
     | none => true
     | some r => r.den == 1 && 0 ≤ r)

/-- JavaScript `x || null` on an optional string: the empty string is falsy
and becomes null. -/
def orNullS : Option String → Option String
  | some s => if s = "" then none else some s
  | none => none

/-- JavaScript `x || null` on an optional number: `0` is falsy and becomes
null. -/
def orNullQ : Option ℚ → Option ℚ
  | some r => if r = 0 then none else some r
  | none => none

/-- A row of the `events` table. -/
structure EventRow where
  test_id : String
  variant_id : String
  visitor_id : String
  event_type : EventType
  product_id : Option String
  order_id : Option String
  revenue_cents : Option ℚ
deriving DecidableEq, Repr

/-- The column mapping the handler applies on insert (`event.product_id ||
null` etc.). -/
def toEventRow (e : TrackEventInput) : EventRow :=
  { test_id := e.test_id
    variant_id := e.variant_id
    visitor_id := e.visitor_id
    event_type := e.event_type
    product_id := orNullS e.product_id
    order_id := orNullS e.order_id
    revenue_cents := orNullQ e.revenue_cents }

/-- Database state visible to the track handler: the `tests` rows (id and
status), the `variants` rows (id and owning test id), and the `events` rows. -/
structure TrackDb where
  tests : List (String × TestStatus)
  variants : List (String × String)
  events : List EventRow
deriving DecidableEq, Repr

/-- Foreign-key admissibility of one event row: `events.test_id` references
`tests(id)` and `events.variant_id` references `variants(id)` (the batch path
performs no application-level check; the insert relies on these
constraints). -/
def fkOk (db : TrackDb) (e : TrackEventInput) : Bool :=
  db.tests.any (fun p => p.1 == e.test_id) &&
    db.variants.any (fun p => p.1 == e.variant_id)

/-- Keys of the purchase-idempotency unique partial index
`idx_events_order_unique ON events(order_id, event_type) WHERE order_id IS
NOT NULL AND event_type = 'purchase'`: the order ids of purchase rows whose
order id is non-null. -/
def purchaseOrderKeys (rows : List EventRow) : List String :=
  rows.filterMap fun r =>
    match r.order_id with
    | some o => if r.event_type = EventType.purchase then some o else none
    | none => none

/-- Whether a key list contains a duplicate. -/
def hasDupKeys : List String → Bool
  | [] => false
  | k :: rest => rest.contains k || hasDupKeys rest

/-- Whether inserting `newRows` into an events table holding `existing`
satisfies the purchase-idempotency unique index: no inserted purchase-keyed
row may collide with an existing one, nor may two rows of the same atomic
multi-row insert share a key — otherwise the whole INSERT errors and no row
is stored. -/
def eventsInsertOk (existing newRows : List EventRow) : Bool :=
  (purchaseOrderKeys newRows).all
      (fun k => !((purchaseOrderKeys existing).contains k)) &&
    !(hasDupKeys (purchaseOrderKeys newRows))

/-- Request body of the track endpoint: a batch is recognised by
`Array.isArray(body.events)`. -/
inductive TrackBody where
  | single (e : TrackEventInput)
  | batch (events : List TrackEventInput)
deriving DecidableEq, Repr

/-- Responses of the track POST handler. -/
inductive TrackResponse where
  | okSingle
  | okBatch (count : ℕ)
  | badRequest
  | batchTooLarge
  | testNotFound
  | testNotActive (status : TestStatus)
  | invalidVariant
  | dbError
deriving DecidableEq, Repr

/-- HTTP status code attached to each track response in the source. -/
def TrackResponse.httpStatus : TrackResponse → ℕ
  | .okSingle => 200
  | .okBatch _ => 200
  | .badRequest => 400
  | .batchTooLarge => 400
  | .testNotFound => 404
  | .testNotActive _ => 400
  | .invalidVariant => 400
  | .dbError => 500

/-- The track POST handler.  Batch path: size cap, per-event schema
validation, then one atomic insert of all rows which fails (500, nothing
inserted) when a database constraint is violated — a missing foreign key or
a duplicate `(order_id, 'purchase')` against the idempotency index — with no
experiment-status or variant-membership check on this path.  Single path:
schema validation, test existence (404), status must be active or completed
(400), variant must belong to the test (400), then the insert, which can
likewise fail (500, nothing inserted) on a duplicate purchase order id. -/
def trackPost (db : TrackDb) (body : TrackBody) : TrackResponse × TrackDb :=
  match body with
  | .batch es =>
      if es.length > 100 then (.batchTooLarge, db)
      else if !(es.all eventSchemaValid) then (.badRequest, db)
      else if es.all (fkOk db) && eventsInsertOk db.events (es.map toEventRow) then
        (.okBatch es.length, { db with events := db.events ++ es.map toEventRow })
      else (.dbError, db)
  | .single e =>
      if !(eventSchemaValid e) then (.badRequest, db)
      else
        match db.tests.find? (fun p => p.1 == e.test_id) with
        | none => (.testNotFound, db)
        | some t =>
            if t.2 ≠ TestStatus.active ∧ t.2 ≠ TestStatus.completed then
              (.testNotActive t.2, db)
            else if !(db.variants.any fun p =>
                p.1 == e.variant_id && p.2 == e.test_id) then
              (.invalidVariant, db)
            else if eventsInsertOk db.events [toEventRow e] then
              (.okSingle, { db with events := db.events ++ [toEventRow e] })
            else (.dbError, db)

/-! ## Statistical engine (`packages/lib/src/stats.ts`)

JavaScript numbers are modelled as `ℝ`; `Math.sqrt`, `Math.exp`, `Math.log`
and `Math.ceil` are `Real.sqrt`, `Real.exp`, `Real.log` and `Int.ceil`.  Two
deliberate modelling deviations, both outside every evaluated domain: a JS
division `0/0` is `NaN` while Lean division by zero is `0` (relevant only to
`sampleVariance` on singleton lists, see claim C6), and inside the engine the
in-range core `normalInverseCDFcore` stands for `normalInverseCDF`, whose
`±Infinity` escape hatches for `p ≤ 0` / `p ≥ 1` are modelled separately on
the three-constructor type `RInf`. -/

/-- Abramowitz–Stegun style approximation of the standard normal CDF
(`normalCDF` in the source). -/
noncomputable def normalCDF (x : ℝ) : ℝ :=
  let a1 : ℝ := 0.254829592
  let a2 : ℝ := -0.284496736
  let a3 : ℝ := 1.421413741
  let a4 : ℝ := -1.453152027
  let a5 : ℝ := 1.061405429
  let p : ℝ := 0.3275911
  let sign : ℝ := if x < 0 then -1 else 1
  let xs := |x| / Real.sqrt 2
  let t := 1.0 / (1.0 + p * xs)
  let y :=
    1.0 - ((((a5 * t + a4) * t + a3) * t + a2) * t + a1) * t * Real.exp (-(xs * xs))
  0.5 * (1.0 + sign * y)

/-- Branch boundary `pLow = 0.02425` of the inverse-CDF approximation. -/
def pLow : ℝ := 0.02425

/-- Branch boundary `pHigh = 1 - pLow` of the inverse-CDF approximation. -/
noncomputable def pHigh : ℝ := 1 - pLow

/-- Numerator polynomial of the tail branches: Horner evaluation of the `c`
coefficient array at `q`. -/
noncomputable def nicTailNum (q : ℝ) : ℝ :=
  (((((-0.007784894002430293) * q + (-0.3223964580411365)) * q +
      (-2.400758277161838)) * q + (-2.549732539343734)) * q +
      4.374664141464968) * q + 2.938163982698783

/-- Denominator polynomial of the tail branches: Horner evaluation of the `d`
coefficient array at `q`, plus 1. -/
noncomputable def nicTailDen (q : ℝ) : ℝ :=
  ((((0.007784695709041462 * q + 0.3224671290700398) * q +
      2.445134137142996) * q + 3.754408661907416) * q + 1)

/-- Numerator polynomial of the central branch: Horner evaluation of the `a`
coefficient array at `r`, times `q`. -/
noncomputable def nicCentralNum (q r : ℝ) : ℝ :=
  ((((((-39.69683028665376) * r + 220.9460984245205) * r +
      (-275.9285104469687)) * r + 138.3577518672690) * r +
      (-30.66479806614716)) * r + 2.506628277459239) * q

/-- Denominator polynomial of the central branch: Horner evaluation of the
`b` coefficient array at `r`, plus 1. -/
noncomputable def nicCentralDen (r : ℝ) : ℝ :=
  (((((-54.47609879822406) * r + 161.5858368580409) * r +
      (-155.6989798598866)) * r + 66.80131188771972) * r +
      (-13.28068155288572)) * r + 1

/-- The `a`-coefficient Horner polynomial of the central branch as a function
of `r` alone (`nicCentralNum q r = nicP r * q`). -/
noncomputable def nicP (r : ℝ) : ℝ :=
  (((((-39.69683028665376) * r + 220.9460984245205) * r +
      (-275.9285104469687)) * r + 138.3577518672690) * r +
      (-30.66479806614716)) * r + 2.506628277459239

/-- Derivative polynomial of `nicP`. -/
noncomputable def nicPd (r : ℝ) : ℝ :=
  (((5 * (-39.69683028665376) * r + 4 * 220.9460984245205) * r +
      3 * (-275.9285104469687)) * r + 2 * 138.3577518672690) * r +
      (-30.66479806614716)

/-- Derivative polynomial of `nicCentralDen`. -/
noncomputable def nicQd (r : ℝ) : ℝ :=
  (((5 * (-54.47609879822406) * r + 4 * 161.5858368580409) * r +
      3 * (-155.6989798598866)) * r + 2 * 66.80131188771972) * r +
      (-13.28068155288572)

/-- Derivative polynomial of `nicTailNum`. -/
noncomputable def nicCd (q : ℝ) : ℝ :=
  (((5 * (-0.007784894002430293) * q + 4 * (-0.3223964580411365)) * q +
      3 * (-2.400758277161838)) * q + 2 * (-2.549732539343734)) * q +
      4.374664141464968

/-- Derivative polynomial of `nicTailDen`. -/
noncomputable def nicDd (q : ℝ) : ℝ :=
  ((4 * 0.007784695709041462 * q + 3 * 0.3224671290700398) * q +
      2 * 2.445134137142996) * q + 3.754408661907416

/-- The high-tail rational value as a function of the transformed variable
`q` (`nicHighTail p = nicTailVal (√(-2·log(1-p)))`). -/
noncomputable def nicTailVal (q : ℝ) : ℝ := -(nicTailNum q) / nicTailDen q

/-- Low-tail branch (`p < pLow`) of the inverse normal CDF approximation. -/
noncomputable def nicLowTail (p : ℝ) : ℝ :=
  let q := Real.sqrt (-(2 * Real.log p))
  nicTailNum q / nicTailDen q

/-- Central branch (`pLow ≤ p ≤ pHigh`) of the inverse normal CDF
approximation. -/
noncomputable def nicCentral (p : ℝ) : ℝ :=
  let q := p - 0.5
  let r := q * q
  nicCentralNum q r / nicCentralDen r

/-- High-tail branch (`p > pHigh`) of the inverse normal CDF approximation. -/
noncomputable def nicHighTail (p : ℝ) : ℝ :=
  let q := Real.sqrt (-(2 * Real.log (1 - p)))
  let num := -(nicTailNum q)
  num / nicTailDen q

/-- The in-range part of `normalInverseCDF` (the three rational-approximation
branches). -/
noncomputable def normalInverseCDFcore (p : ℝ) : ℝ :=
  if p < pLow then nicLowTail p
  else if p ≤ pHigh then nicCentral p
  else nicHighTail p

/-- A JS number that may be `-Infinity` or `Infinity`. -/
inductive RInf where
  | negInf
  | val (x : ℝ)
  | posInf

/-- The full `normalInverseCDF` contract: `-Infinity` for `p <= 0`,
`Infinity` for `p >= 1`, otherwise the rational approximation. -/
noncomputable def normalInverseCDF (p : ℝ) : RInf :=
  if p ≤ 0 then .negInf
  else if 1 ≤ p then .posInf
  else .val (normalInverseCDFcore p)

/-- Aggregate per-variant statistics, the sole input shape of the engine. -/
structure VariantStats where
  visitors : ℝ
  conversions : ℝ
  revenue_cents : ℝ

/-- Raw conversion rate `conversions / visitors` (0 if `visitors == 0`), the
source's `p1`/`p2`. -/
noncomputable def convRate (s : VariantStats) : ℝ :=
  if s.visitors > 0 then s.conversions / s.visitors else 0

/-- Pooled proportion `(x1 + x2) / (n1 + n2)` (0 if the denominator is 0). -/
noncomputable def pooledRate (control variant : VariantStats) : ℝ :=
  if control.visitors + variant.visitors > 0 then
    (control.conversions + variant.conversions) /
      (control.visitors + variant.visitors)
  else 0

/-- Standard error of the two-proportion z-test, 0 when either sample size is
0. -/
noncomputable def conversionSE (control variant : VariantStats) : ℝ :=
  if control.visitors > 0 ∧ variant.visitors > 0 then
    Real.sqrt (pooledRate control variant * (1 - pooledRate control variant) *
      (1 / control.visitors + 1 / variant.visitors))
  else 0

/-- Result record of `calculateConversionSignificance`.  The boolean fields of
the source are modelled as the propositions they test; `recommendedSampleSize`
(a `Math.ceil` result) is an integer. -/
structure ConversionTestResult where
  controlRate : ℝ
  variantRate : ℝ
  absoluteLift : ℝ
  relativeLift : ℝ
  zScore : ℝ
  pValue : ℝ
  significant : Prop
  confidenceLevel : ℝ
  controlCI : ℝ × ℝ
  variantCI : ℝ × ℝ
  sampleSizeReached : Prop
  recommendedSampleSize : ℤ

/-- Two-proportion z-test for conversion rate comparison
(`calculateConversionSignificance`). -/
noncomputable def calculateConversionSignificance (control variant : VariantStats)
    (confidenceLevel : ℝ) : ConversionTestResult :=
  let n1 := control.visitors
  let n2 := variant.visitors
  let p1 := convRate control
  let p2 := convRate variant
  let se := conversionSE control variant
  let z := if se > 0 then (p2 - p1) / se else 0
  let pValue := 2 * (1 - normalCDF |z|)
  let alpha := 1 - confidenceLevel
  let zCritical := normalInverseCDFcore (1 - alpha / 2)
  let se1 := if n1 > 0 then Real.sqrt ((p1 * (1 - p1)) / n1) else 0
  let se2 := if n2 > 0 then Real.sqrt ((p2 * (1 - p2)) / n2) else 0
  let mde : ℝ := 0.05
  let power : ℝ := 0.8
  let zAlpha := normalInverseCDFcore (1 - alpha / 2)
  let zBeta := normalInverseCDFcore power
  let baseRate := if p1 > 0 then p1 else 0.03
  let recommendedSampleSize : ℤ :=
    ⌈2 * (zAlpha + zBeta) ^ 2 * baseRate * (1 - baseRate) / (baseRate * mde) ^ 2⌉
  { controlRate := p1
    variantRate := p2
    absoluteLift := p2 - p1
    relativeLift := if p1 > 0 then ((p2 - p1) / p1) * 100 else 0
    zScore := z
    pValue := pValue
    significant := pValue < alpha
    confidenceLevel := confidenceLevel
    controlCI := (max 0 (p1 - zCritical * se1), min 1 (p1 + zCritical * se1))
    variantCI := (max 0 (p2 - zCritical * se2), min 1 (p2 + zCritical * se2))
    sampleSizeReached := min n1 n2 ≥ (recommendedSampleSize : ℝ)
    recommendedSampleSize := recommendedSampleSize }

/-- Revenue per visitor `revenue / visitors` (0 if no visitors). -/
noncomputable def rpv (s : VariantStats) : ℝ :=
  if s.visitors > 0 then s.revenue_cents / s.visitors else 0

/-- Bessel-corrected sample variance as the source computes it from a raw
revenue array: mean by `reduce`/length, squared deviations summed and divided
by `length - 1` (for a singleton list the source divides 0 by 0, giving NaN
in JS; in this model that division is 0). -/
noncomputable def sampleVariance (xs : List ℝ) : ℝ :=
  let mean := xs.sum / (xs.length : ℝ)
  ((xs.map fun x => (x - mean) ^ 2).sum) / ((xs.length : ℝ) - 1)

/-- The variance estimates `var1, var2` chosen by
`calculateRevenueSignificance`: the sample-variance path when both raw arrays
are non-empty (`length > 0` in the source), otherwise the `RPV²`
approximation per arm. -/
noncomputable def revenueVariances (control variant : VariantStats)
    (controlRevenues variantRevenues : List ℝ) : ℝ × ℝ :=
  if controlRevenues.length > 0 ∧ variantRevenues.length > 0 then
    (sampleVariance controlRevenues, sampleVariance variantRevenues)
  else
    (if rpv control > 0 then rpv control * rpv control else 0,
     if rpv variant > 0 then rpv variant * rpv variant else 0)

/-- Result record of `calculateRevenueSignificance`. -/
structure RevenueTestResult where
  controlRPV : ℝ
  variantRPV : ℝ
  absoluteLift : ℝ
  relativeLift : ℝ
  tStatistic : ℝ
  pValue : ℝ
  significant : Prop
  confidenceLevel : ℝ

/-- Welch-style revenue-per-visitor comparison
(`calculateRevenueSignificance`); the Welch–Satterthwaite `df` the source
computes is not part of the returned record and is omitted. -/
noncomputable def calculateRevenueSignificance (control variant : VariantStats)
    (controlRevenues variantRevenues : List ℝ) (confidenceLevel : ℝ) :
    RevenueTestResult :=
  let n1 := control.visitors
  let n2 := variant.visitors
  let rpv1 := rpv control
  let rpv2 := rpv variant
  let vars := revenueVariances control variant controlRevenues variantRevenues
  let se := Real.sqrt (vars.1 / max n1 1 + vars.2 / max n2 1)
  let t := if se > 0 then (rpv2 - rpv1) / se else 0
  let pValue := 2 * (1 - normalCDF |t|)
  let alpha := 1 - confidenceLevel
  { controlRPV := rpv1
    variantRPV := rpv2
    absoluteLift := rpv2 - rpv1
    relativeLift := if rpv1 > 0 then ((rpv2 - rpv1) / rpv1) * 100 else 0
    tStatistic := t
    pValue := pValue
    significant := pValue < alpha
    confidenceLevel := confidenceLevel }

/-- Which arm wins in `analyzeTest`. -/
inductive Winner where
  | control
  | variant
  | none
deriving DecidableEq, Repr

/-- Which recommendation template `analyzeTest` chose (the source interpolates
numbers into fixed message templates; the record of which template was picked
is the decision content). -/
inductive Recommendation where
  | needMoreData
  | noSignificantDifference
  | variantConversionLift
  | controlConversionBetter
  | variantRevenueLift
  | controlRevenueBetter
  | empty
deriving DecidableEq, Repr

/-- Result record of `analyzeTest`. -/
structure TestAnalysis where
  conversion : ConversionTestResult
  revenue : RevenueTestResult
  winner : Winner
  recommendation : Recommendation

section
open Classical

/-- Composite analysis combining conversion and revenue metrics
(`analyzeTest`): conversion and revenue tests are computed (revenue without
raw samples), then the winner/recommendation ladder runs in source order. -/
noncomputable def analyzeTest (control variant : VariantStats)
    (confidenceLevel : ℝ) : TestAnalysis :=
  let conversion := calculateConversionSignificance control variant confidenceLevel
  let revenue := calculateRevenueSignificance control variant [] [] confidenceLevel
  if ¬ conversion.sampleSizeReached then
    { conversion := conversion, revenue := revenue, winner := .none,
      recommendation := .needMoreData }
  else if ¬ conversion.significant ∧ ¬ revenue.significant then
    { conversion := conversion, revenue := revenue, winner := .none,
      recommendation := .noSignificantDifference }
  else if conversion.significant ∧ conversion.relativeLift > 0 then
    { conversion := conversion, revenue := revenue, winner := .variant,
      recommendation := .variantConversionLift }
  else if conversion.significant ∧ conversion.relativeLift < 0 then
    { conversion := conversion, revenue := revenue, winner := .control,
      recommendation := .controlConversionBetter }
  else if revenue.significant ∧ revenue.relativeLift > 0 then
    { conversion := conversion, revenue := revenue, winner := .variant,
      recommendation := .variantRevenueLift }
  else if revenue.significant ∧ revenue.relativeLift < 0 then
    { conversion := conversion, revenue := revenue, winner := .control,
      recommendation := .controlRevenueBetter }
  else
    { conversion := conversion, revenue := revenue, winner := .none,
      recommendation := .empty }

end

/-- Minimum per-arm sample size (`calculateRequiredSampleSize`). -/
noncomputable def calculateRequiredSampleSize (baselineConversionRate
    minimumDetectableEffect power significanceLevel : ℝ) : ℤ :=
  let alpha := significanceLevel
  let zAlpha := normalInverseCDFcore (1 - alpha / 2)
  let zBeta := normalInverseCDFcore power
  let p1 := baselineConversionRate
  let p2 := p1 * (1 + minimumDetectableEffect)
  let pBar := (p1 + p2) / 2
  ⌈(2 * pBar * (1 - pBar) * (zAlpha + zBeta) ^ 2) / (p2 - p1) ^ 2⌉

/-! ## Definitions written from the spec text, for refinement claims -/

section
open Classical

/-- Winner decision written from claim C2's numbered first-match rules:
(1) sample size not reached → none; (2) neither test significant → none;
(3) conversion significant, positive lift → variant; (4) conversion
significant, negative lift → control; (5) revenue significant, positive lift
→ variant; (6) revenue significant, negative lift → control; otherwise none. -/
noncomputable def winnerByClaimRules (conversion : ConversionTestResult)
    (revenue : RevenueTestResult) : Winner :=
  if ¬ conversion.sampleSizeReached then .none
  else if ¬ conversion.significant ∧ ¬ revenue.significant then .none
  else if conversion.significant ∧ conversion.relativeLift > 0 then .variant
  else if conversion.significant ∧ conversion.relativeLift < 0 then .control
  else if revenue.significant ∧ revenue.relativeLift > 0 then .variant
  else if revenue.significant ∧ revenue.relativeLift < 0 then .control
  else .none

end

/-- The 80%-power, 5%-relative-MDE sample-size formula anchored on the
baseline-rate variance `baseRate·(1-baseRate)` — the formula the inline
recommendation in `calculateConversionSignificance` actually computes (claim
C5 as amended; the standalone calculator instead uses the pooled variance
`p̄·(1-p̄)` with `p̄ = baseRate·(1 + mde/2)`). -/
noncomputable def requiredSampleSizeBaselineVariance (baseRate mde power
    significanceLevel : ℝ) : ℤ :=
  let zAlpha := normalInverseCDFcore (1 - significanceLevel / 2)
  let zBeta := normalInverseCDFcore power
  ⌈2 * (zAlpha + zBeta) ^ 2 * baseRate * (1 - baseRate) / (baseRate * mde) ^ 2⌉

/-! # Theorems -/

/-! ## C10 — any experiment-lookup error is reported as `Test not found` -/

/-- C10: in `resolveAssignment`, every error from the experiment-lookup query
— any `PgError` whatsoever, transient persistence failures included, not only
the "no rows" error — produces the `Test not found` response (HTTP 404) with
no assignment-table operation performed, and in particular is never surfaced
as `ASSIGNMENT_FAILED` (HTTP 500). -/
theorem c10_lookup_error_yields_not_found (e : PgError) (existing : Option Variant)
    (draw : ℚ) (insertError : Option PgError) (reRead : Option Variant) :
    resolveAssignment (.err e) existing draw insertError reRead =
      (.testNotFound, []) ∧
    BucketResponse.testNotFound.httpStatus = 404 ∧
    BucketResponse.testNotFound ≠ BucketResponse.assignmentFailed := by
  exact ⟨rfl, rfl, by simp⟩

/-! ## C1 — losing the assignment-insert race -/

/-- Every assignment-table operation the handler can perform maps an
already-assigned `(test, visitor)` state to itself: inserts are rejected by
the uniqueness constraint and the re-read does not write. -/
theorem assigned_state_stable (ops : List AssignOp) (vid : String) :
    List.foldl applyAssignOp (some vid) ops = some vid := by
  induction ops with
  | nil => rfl
  | cons op rest ih =>
      cases op <;> simpa [applyAssignOp] using ih

/-- C1: for a first-time request (no existing assignment) on an active
experiment with at least one variant whose insert fails: if the error code is
the uniqueness-violation `"23505"` and the re-read finds the assignment that
won the race, the handler performs exactly one re-read (the operation list is
`[insert, reRead]`) and returns the winner's variant with
`is_new_assignment = false`, discarding the locally selected variant; for any
other error code it returns `ASSIGNMENT_FAILED` (HTTP 500) with no re-read;
and the per-pair state machine never leaves the Assigned state: every
operation list any run can produce maps `some vid` to `some vid`. -/
theorem c1_insert_conflict_protocol (test : TestRow) (draw : ℚ) (e : PgError)
    (reRead : Option Variant) (v0 : Variant) (rest : List Variant)
    (hact : test.status = TestStatus.active)
    (hvar : test.variants = v0 :: rest) :
    (e.code = "23505" → ∀ winner, reRead = some winner →
      resolveAssignment (.row test) none draw (some e) reRead =
        (.ok (variantBody winner false),
         [.insert (selectVariant v0 rest draw).id, .reRead])) ∧
    (e.code ≠ "23505" →
      resolveAssignment (.row test) none draw (some e) reRead =
        (.assignmentFailed, [.insert (selectVariant v0 rest draw).id])) ∧
    BucketResponse.assignmentFailed.httpStatus = 500 ∧
    (∀ (tl : Lookup TestRow) (ex : Option Variant) (d : ℚ)
        (ie : Option PgError) (rr : Option Variant) (vid : String),
      List.foldl applyAssignOp (some vid)
        (resolveAssignment tl ex d ie rr).2 = some vid) := by
  refine ⟨?_, ?_, rfl, ?_⟩
  · intro hcode winner hrr
    subst hrr
    simp [resolveAssignment, hact, hvar, hcode]
  · intro hcode
    simp [resolveAssignment, hact, hvar, hcode]
  · intro tl ex d ie rr vid
    exact assigned_state_stable _ vid

/-- Concrete instantiation of C1: an active two-variant test, a draw of 50,
an insert failing with code `"23505"` and a re-read returning the winner, and
separately an insert failing with an unrelated code. -/
theorem c1_witness :
    (resolveAssignment
        (.row { status := TestStatus.active,
                variants := [⟨"va", "A", 70, Option.none, Option.none⟩,
                             ⟨"vb", "B", 30, Option.none, Option.none⟩] })
        Option.none 50 (some ⟨"23505"⟩)
        (some ⟨"vb", "B", 30, Option.none, Option.none⟩) =
      (.ok (variantBody ⟨"vb", "B", 30, Option.none, Option.none⟩ false),
       [.insert (selectVariant ⟨"va", "A", 70, Option.none, Option.none⟩
          [⟨"vb", "B", 30, Option.none, Option.none⟩] 50).id, .reRead])) ∧
    (resolveAssignment
        (.row { status := TestStatus.active,
                variants := [⟨"va", "A", 70, Option.none, Option.none⟩,
                             ⟨"vb", "B", 30, Option.none, Option.none⟩] })
        Option.none 50 (some ⟨"42"⟩) Option.none =
      (.assignmentFailed,
       [.insert (selectVariant ⟨"va", "A", 70, Option.none, Option.none⟩
          [⟨"vb", "B", 30, Option.none, Option.none⟩] 50).id])) := by
  constructor
  · exact (c1_insert_conflict_protocol _ 50 ⟨"23505"⟩ _ _ _ rfl rfl).1 rfl _ rfl
  · exact (c1_insert_conflict_protocol _ 50 ⟨"42"⟩ Option.none _ _ rfl rfl).2.1
      (by decide)

/-! ## C3 — weighted random selection -/

/-- Cumulative weight of a cons cell: the head's weight plus the cumulative
weight of the tail. -/
theorem cumWeight_cons (v : Variant) (vs : List Variant) (j : ℕ) :
    cumWeight (v :: vs) (j + 1) = (v.weight : ℚ) + cumWeight vs j := by
  simp [cumWeight]

/-- Full cumulative weight equals the source's `totalWeight` reduction. -/
theorem cumWeight_total (vs : List Variant) :
    cumWeight vs vs.length = (totalWeight vs : ℚ) := by
  induction vs with
  | nil => simp [cumWeight, totalWeight]
  | cons v rest ih =>
      have hfold : ∀ (l : List Variant) (n : ℕ),
          l.foldl (fun sum v => sum + v.weight) n =
            n + l.foldl (fun sum v => sum + v.weight) 0 := by
        intro l
        induction l with
        | nil => intro n; simp
        | cons w tl ihl =>
            intro n
            simp only [List.foldl_cons]
            rw [ihl (n + w.weight), ihl (0 + w.weight)]
            omega
      have : totalWeight (v :: rest) = v.weight + totalWeight rest := by
        simp only [totalWeight, List.foldl_cons, Nat.zero_add]
        exact hfold rest v.weight
      rw [List.length_cons, cumWeight_cons, ih, this]
      push_cast
      ring

/-- Behaviour of the selection loop with accumulator offset `c`: either the
`random <= cumulative` test fired first at index `i` — the result is element
`i`, the draw is at most the cumulative weight through `i`, and it exceeds
every earlier cumulative weight — or the test never fired, the initial
`selected` value is kept and the draw exceeds every cumulative weight. -/
theorem selectLoop_spec (vs : List Variant) (r : ℚ) (s : Variant) :
    ∀ c : ℚ,
    (∃ i, ∃ h : i < vs.length,
       selectLoop vs r c s = vs.get ⟨i, h⟩ ∧
       r ≤ c + cumWeight vs (i + 1) ∧
       ∀ j < i, c + cumWeight vs (j + 1) < r)
    ∨ (selectLoop vs r c s = s ∧ ∀ j < vs.length, c + cumWeight vs (j + 1) < r) := by
  induction vs with
  | nil =>
      intro c
      right
      exact ⟨rfl, by simp⟩
  | cons v rest ih =>
      intro c
      by_cases hr : r ≤ c + (v.weight : ℚ)
      · left
        refine ⟨0, by simp, ?_, ?_, ?_⟩
        · simp [selectLoop, hr]
        · simpa [cumWeight_cons, cumWeight] using hr
        · intro j hj
          exact absurd hj (Nat.not_lt_zero j)
      · have hstep : selectLoop (v :: rest) r c s =
            selectLoop rest r (c + (v.weight : ℚ)) s := by
          simp [selectLoop, hr]
        have hlt : c + (v.weight : ℚ) < r := lt_of_not_le hr
        rcases ih (c + (v.weight : ℚ)) with ⟨i, h, heq, hle, hall⟩ | ⟨heq, hall⟩
        · left
          refine ⟨i + 1, by simpa using Nat.succ_lt_succ h, ?_, ?_, ?_⟩
          · rw [hstep, heq]; rfl
          · rw [cumWeight_cons]
            linarith [hle]
          · intro j hj
            cases j with
            | zero =>
                simpa [cumWeight_cons, cumWeight] using hlt
            | succ k =>
                rw [cumWeight_cons]
                have := hall k (Nat.lt_of_succ_lt_succ hj)
                linarith
        · right
          refine ⟨by rw [hstep, heq], ?_⟩
          intro j hj
          cases j with
          | zero =>
              simpa [cumWeight_cons, cumWeight] using hlt
          | succ k =>
              rw [cumWeight_cons]
              have := hall k (by simpa using Nat.lt_of_succ_lt_succ hj)
              linarith

/-- C3: for a non-empty variant list and any draw in `[0, Σweights)` — the
range of `Math.random() * totalWeight` — the weighted selection walks the
variants in order and returns the first variant whose cumulative weight meets
or exceeds the draw (`random <= cumulative`); some variant always satisfies
the test for a draw in range (so the final variant is reached when the draw
exceeds every earlier cumulative weight), and the selection never falls
outside the list. -/
theorem c3_weighted_selection (v0 : Variant) (rest : List Variant) (r : ℚ)
    (_h0 : 0 ≤ r) (hlt : r < (totalWeight (v0 :: rest) : ℚ)) :
    selectVariant v0 rest r ∈ (v0 :: rest) ∧
    ∃ i, ∃ h : i < (v0 :: rest).length,
      selectVariant v0 rest r = (v0 :: rest).get ⟨i, h⟩ ∧
      r ≤ cumWeight (v0 :: rest) (i + 1) ∧
      ∀ j < i, cumWeight (v0 :: rest) (j + 1) < r := by
  rcases selectLoop_spec (v0 :: rest) r v0 0 with ⟨i, h, heq, hle, hall⟩ | ⟨_, hall⟩
  · refine ⟨?_, i, h, ?_, ?_, ?_⟩
    · rw [show selectVariant v0 rest r = selectLoop (v0 :: rest) r 0 v0 from rfl,
        heq]
      exact List.get_mem _ _ _
    · exact heq
    · simpa using hle
    · intro j hj
      have := hall j hj
      simpa using this
  · exfalso
    have hlast := hall rest.length (by simp)
    rw [show rest.length + 1 = (v0 :: rest).length by simp] at hlast
    rw [cumWeight_total] at hlast
    simp only [zero_add] at hlast
    linarith

/-- Concrete instantiation of C3: weights `{70, 30}` and draw `80` select the
second variant. -/
theorem c3_witness :
    (0 : ℚ) ≤ 80 ∧
    (80 : ℚ) < (totalWeight [⟨"va", "A", 70, Option.none, Option.none⟩,
      ⟨"vb", "B", 30, Option.none, Option.none⟩] : ℚ) ∧
    (selectVariant ⟨"va", "A", 70, Option.none, Option.none⟩
        [⟨"vb", "B", 30, Option.none, Option.none⟩] 80 ∈
      [(⟨"va", "A", 70, Option.none, Option.none⟩ : Variant),
       ⟨"vb", "B", 30, Option.none, Option.none⟩]) := by
  refine ⟨by norm_num, by norm_num [totalWeight], ?_⟩
  exact (c3_weighted_selection _ _ 80 (by norm_num)
    (by norm_num [totalWeight])).1

/-! ## C7 — event-tracking validation -/

/-- Counterexample to C7 as stated: a batch request carrying an event for a
`draft` test (whose variant row exists, so no foreign key fails) is accepted
with HTTP 200 and its event row is inserted, although the claim requires
every request for a test that is not active-or-completed to be rejected as a
client error with no insertion — the batch path performs no status or
variant-membership check. -/
theorem c7_counterexample :
    trackPost ⟨[("t1", TestStatus.draft)], [("v1", "t1")], []⟩
        (.batch [⟨"t1", "v1", "x", EventType.view, Option.none, Option.none,
          Option.none⟩]) =
      (.okBatch 1,
       ⟨[("t1", TestStatus.draft)], [("v1", "t1")],
        [⟨"t1", "v1", "x", EventType.view, Option.none, Option.none,
          Option.none⟩]⟩) ∧
    TrackResponse.httpStatus (.okBatch 1) = 200 := by
  exact ⟨rfl, rfl⟩

/-- C7 as amended: single-event requests are fully validated before insertion
— schema (including the non-negative-integer revenue check), then test
existence (404), then status active-or-completed (400), then variant
membership in the test (400), each failure leaving the database unchanged —
and the insert itself still fails (500, nothing inserted) on a duplicate
`(order_id, 'purchase')` against the idempotency index.  Batch requests are
validated only against the per-event schema and the batch-size cap and are
inserted without any status or membership check; their single atomic insert
fails (500, nothing inserted) when a foreign key is missing or a purchase
order id duplicates an existing or in-batch one. -/
theorem c7_validation_amended :
    (∀ (db : TrackDb) (e : TrackEventInput), eventSchemaValid e = false →
        trackPost db (.single e) = (.badRequest, db)) ∧
    (∀ (db : TrackDb) (e : TrackEventInput), eventSchemaValid e = true →
        db.tests.find? (fun p => p.1 == e.test_id) = Option.none →
        trackPost db (.single e) = (.testNotFound, db)) ∧
    (∀ (db : TrackDb) (e : TrackEventInput) (t : String × TestStatus),
        eventSchemaValid e = true →
        db.tests.find? (fun p => p.1 == e.test_id) = some t →
        t.2 ≠ TestStatus.active → t.2 ≠ TestStatus.completed →
        trackPost db (.single e) = (.testNotActive t.2, db)) ∧
    (∀ (db : TrackDb) (e : TrackEventInput) (t : String × TestStatus),
        eventSchemaValid e = true →
        db.tests.find? (fun p => p.1 == e.test_id) = some t →
        (t.2 = TestStatus.active ∨ t.2 = TestStatus.completed) →
        db.variants.any (fun p => p.1 == e.variant_id && p.2 == e.test_id) =
          false →
        trackPost db (.single e) = (.invalidVariant, db)) ∧
    (∀ (db : TrackDb) (e : TrackEventInput) (t : String × TestStatus),
        eventSchemaValid e = true →
        db.tests.find? (fun p => p.1 == e.test_id) = some t →
        (t.2 = TestStatus.active ∨ t.2 = TestStatus.completed) →
        db.variants.any (fun p => p.1 == e.variant_id && p.2 == e.test_id) =
          true →
        eventsInsertOk db.events [toEventRow e] = true →
        trackPost db (.single e) =
          (.okSingle, { db with events := db.events ++ [toEventRow e] })) ∧
    (∀ (db : TrackDb) (e : TrackEventInput) (t : String × TestStatus),
        eventSchemaValid e = true →
        db.tests.find? (fun p => p.1 == e.test_id) = some t →
        (t.2 = TestStatus.active ∨ t.2 = TestStatus.completed) →
        db.variants.any (fun p => p.1 == e.variant_id && p.2 == e.test_id) =
          true →
        eventsInsertOk db.events [toEventRow e] = false →
        trackPost db (.single e) = (.dbError, db)) ∧
    (∀ (db : TrackDb) (es : List TrackEventInput), es.length ≤ 100 →
        es.all eventSchemaValid = true →
        es.all (fkOk db) = true →
        eventsInsertOk db.events (es.map toEventRow) = true →
        trackPost db (.batch es) =
          (.okBatch es.length,
           { db with events := db.events ++ es.map toEventRow })) ∧
    (∀ (db : TrackDb) (es : List TrackEventInput), es.length ≤ 100 →
        es.all eventSchemaValid = true →
        (es.all (fkOk db) = false ∨
         eventsInsertOk db.events (es.map toEventRow) = false) →
        trackPost db (.batch es) = (.dbError, db)) := by
  refine ⟨?_, ?_, ?_, ?_, ?_, ?_, ?_, ?_⟩
  · intro db e h
    simp [trackPost, h]
  · intro db e h hfind
    simp [trackPost, h, hfind]
  · intro db e t h hfind h1 h2
    simp [trackPost, h, hfind, h1, h2]
  · intro db e t h hfind hst hvar
    have hns : ¬ (t.2 ≠ TestStatus.active ∧ t.2 ≠ TestStatus.completed) := by
      rcases hst with h | h <;> simp [h]
    simp [trackPost, h, hfind, hns, hvar]
  · intro db e t h hfind hst hvar hins
    have hns : ¬ (t.2 ≠ TestStatus.active ∧ t.2 ≠ TestStatus.completed) := by
      rcases hst with h | h <;> simp [h]
    simp [trackPost, h, hfind, hns, hvar, hins]
  · intro db e t h hfind hst hvar hins
    have hns : ¬ (t.2 ≠ TestStatus.active ∧ t.2 ≠ TestStatus.completed) := by
      rcases hst with h | h <;> simp [h]
    simp [trackPost, h, hfind, hns, hvar, hins]
  · intro db es hlen hval hfk hins
    have hnot : ¬ es.length > 100 := by omega
    simp [trackPost, hnot, hval, hfk, hins]
  · intro db es hlen hval hbad
    have hnot : ¬ es.length > 100 := by omega
    have hcond : (es.all (fkOk db) &&
        eventsInsertOk db.events (es.map toEventRow)) = false := by
      rcases hbad with h | h <;> simp [h]
    simp [trackPost, hnot, hval, hcond]

/-- Concrete instantiation of C7 as amended: a single event for a `draft`
test is rejected with the not-active client error and nothing inserted; a
schema-valid batch for an `active` test is inserted; and re-sending the same
purchase batch against the resulting state violates the
`(order_id, 'purchase')` idempotency index, so it fails with the database
error and nothing is inserted. -/
theorem c7_witness :
    trackPost ⟨[("t1", TestStatus.draft)], [("v1", "t1")], []⟩
        (.single ⟨"t1", "v1", "x", EventType.view, Option.none, Option.none,
          Option.none⟩) =
      (.testNotActive TestStatus.draft,
       ⟨[("t1", TestStatus.draft)], [("v1", "t1")], []⟩) ∧
    trackPost ⟨[("t2", TestStatus.active)], [("v2", "t2")], []⟩
        (.batch [⟨"t2", "v2", "y", EventType.purchase, Option.none,
          some "o1", some 500⟩]) =
      (.okBatch 1,
       ⟨[("t2", TestStatus.active)], [("v2", "t2")],
        [⟨"t2", "v2", "y", EventType.purchase, Option.none, some "o1",
          some 500⟩]⟩) ∧
    trackPost ⟨[("t2", TestStatus.active)], [("v2", "t2")],
        [⟨"t2", "v2", "y", EventType.purchase, Option.none, some "o1",
          some 500⟩]⟩
        (.batch [⟨"t2", "v2", "z", EventType.purchase, Option.none,
          some "o1", some 500⟩]) =
      (.dbError,
       ⟨[("t2", TestStatus.active)], [("v2", "t2")],
        [⟨"t2", "v2", "y", EventType.purchase, Option.none, some "o1",
          some 500⟩]⟩) := by
  refine ⟨?_, ?_, ?_⟩
  · exact (c7_validation_amended.2.2.1 _ _ ("t1", TestStatus.draft)
      (by decide) (by decide) (by decide) (by decide))
  · exact (c7_validation_amended.2.2.2.2.2.2.1 _ _ (by decide) (by decide)
      (by decide) (by decide))
  · exact (c7_validation_amended.2.2.2.2.2.2.2 _ _ (by decide) (by decide)
      (Or.inr (by decide)))

/-! ## C2 — composite decision policy -/

/-- C2: `analyzeTest` determines the winner by exactly the claim's ordered
first-match rules (sample size gate first, then the no-significance gate,
then conversion significance with positive/negative lift, then revenue
significance with positive/negative lift, consulting conversion before
revenue), and the "need more data" recommendation is chosen precisely when
conversion `sampleSizeReached` is false. -/
theorem c2_decision_policy (control variant : VariantStats)
    (confidenceLevel : ℝ) :
    (analyzeTest control variant confidenceLevel).winner =
      winnerByClaimRules
        (analyzeTest control variant confidenceLevel).conversion
        (analyzeTest control variant confidenceLevel).revenue ∧
    ((analyzeTest control variant confidenceLevel).recommendation =
        Recommendation.needMoreData ↔
      ¬ (analyzeTest control variant confidenceLevel).conversion.sampleSizeReached) := by
  classical
  have hconv : (analyzeTest control variant confidenceLevel).conversion =
      calculateConversionSignificance control variant confidenceLevel := by
    simp only [analyzeTest]
    split_ifs <;> rfl
  have hrev : (analyzeTest control variant confidenceLevel).revenue =
      calculateRevenueSignificance control variant [] [] confidenceLevel := by
    simp only [analyzeTest]
    split_ifs <;> rfl
  rw [hconv, hrev]
  constructor
  · simp only [analyzeTest, winnerByClaimRules]
    split_ifs <;> rfl
  · simp only [analyzeTest]
    split_ifs with h1 <;> simp [h1]

/-! ## C4 — degenerate all-zero input safety -/

/-- C4: on the all-zero input (`visitors = 0`, `conversions = 0` in both
arms) every degenerate denominator takes its defined-zero fallback — both
rates are 0, the pooled rate is 0, the standard error is 0, the z-score is 0,
`relativeLift` is 0 — and the returned p-value is within `10⁻⁶` of 1 (its
exact value is `1 - 10⁻⁹`, the residue of the CDF polynomial's coefficients
summing to `0.999999999`).  In this total model the absence of exceptions is
structural: every field is a defined real number. -/
theorem c4_all_zero_defined :
    convRate ⟨0, 0, 0⟩ = 0 ∧
    pooledRate ⟨0, 0, 0⟩ ⟨0, 0, 0⟩ = 0 ∧
    conversionSE ⟨0, 0, 0⟩ ⟨0, 0, 0⟩ = 0 ∧
    (calculateConversionSignificance ⟨0, 0, 0⟩ ⟨0, 0, 0⟩ 0.95).controlRate = 0 ∧
    (calculateConversionSignificance ⟨0, 0, 0⟩ ⟨0, 0, 0⟩ 0.95).variantRate = 0 ∧
    (calculateConversionSignificance ⟨0, 0, 0⟩ ⟨0, 0, 0⟩ 0.95).zScore = 0 ∧
    (calculateConversionSignificance ⟨0, 0, 0⟩ ⟨0, 0, 0⟩ 0.95).relativeLift = 0 ∧
    |(calculateConversionSignificance ⟨0, 0, 0⟩ ⟨0, 0, 0⟩ 0.95).pValue - 1| ≤
      1 / 1000000 := by
  have hrate : convRate ⟨0, 0, 0⟩ = 0 := by simp [convRate]
  have hpool : pooledRate ⟨0, 0, 0⟩ ⟨0, 0, 0⟩ = 0 := by simp [pooledRate]
  have hse : conversionSE ⟨0, 0, 0⟩ ⟨0, 0, 0⟩ = 0 := by
    simp [conversionSE]
  have hcdf : normalCDF 0 = 0.5 * (1 + (1 - 0.999999999)) := by
    simp only [normalCDF]
    rw [if_neg (by norm_num)]
    simp only [abs_zero, zero_div]
    rw [show -((0 : ℝ) * 0) = 0 by ring, Real.exp_zero]
    norm_num
  refine ⟨hrate, hpool, hse, ?_, ?_, ?_, ?_, ?_⟩
  · simp [calculateConversionSignificance, hrate]
  · simp [calculateConversionSignificance, hrate]
  · simp [calculateConversionSignificance, hse]
  · simp [calculateConversionSignificance, hrate]
  · have : (calculateConversionSignificance ⟨0, 0, 0⟩ ⟨0, 0, 0⟩ 0.95).pValue =
        2 * (1 - normalCDF 0) := by
      simp [calculateConversionSignificance, hse, hrate]
    rw [this, hcdf, abs_le]
    constructor <;> norm_num

/-! ## C5 — inline sample-size recommendation vs the standalone calculator -/

/-- Counterexample to C5 as stated: at the spec's own concrete scenario
(control 30/1000, treatment 40/1000, confidence 0.95) the inline
recommendation of `calculateConversionSignificance` is 203025 while
`calculateRequiredSampleSize 0.03 0.05 0.8 0.05` is 207940 — the inline
formula anchors the variance on `baseRate·(1-baseRate)` while the standalone
calculator uses the pooled `p̄·(1-p̄)` with `p̄ = baseRate·1.025`, so the two
are not equal. -/
theorem c5_counterexample :
    (calculateConversionSignificance ⟨1000, 30, 30000⟩ ⟨1000, 40, 40000⟩
        0.95).recommendedSampleSize ≠
      calculateRequiredSampleSize 0.03 0.05 0.8 0.05 := by
  have hgap : ∀ z : ℝ, 1 ≤ z →
      (⌈2 * z ^ 2 * (0.03 : ℝ) * (1 - 0.03) / (0.03 * 0.05) ^ 2⌉ : ℤ) <
      ⌈(2 * ((0.03 + 0.03 * (1 + 0.05)) / 2) *
          (1 - (0.03 + 0.03 * (1 + 0.05)) / 2) * z ^ 2) /
        (0.03 * (1 + 0.05) - 0.03) ^ 2⌉ := by
    intro z hz
    have hz2 : (1 : ℝ) ≤ z ^ 2 := by nlinarith
    have hmid : 2 * z ^ 2 * (0.03 : ℝ) * (1 - 0.03) / (0.03 * 0.05) ^ 2 + 1 ≤
        (2 * ((0.03 + 0.03 * (1 + 0.05)) / 2) *
          (1 - (0.03 + 0.03 * (1 + 0.05)) / 2) * z ^ 2) /
        (0.03 * (1 + 0.05) - 0.03) ^ 2 := by
      have hrw : 2 * z ^ 2 * (0.03 : ℝ) * (1 - 0.03) / (0.03 * 0.05) ^ 2 =
          (77600 / 3) * z ^ 2 := by
        ring_nf
      have hrw2 : (2 * ((0.03 + 0.03 * (1 + 0.05)) / 2) *
          (1 - (0.03 + 0.03 * (1 + 0.05)) / 2) * z ^ 2) /
          (0.03 * (1 + 0.05) - 0.03) ^ 2 = (476871 / 18) * z ^ 2 := by
        ring_nf
      rw [hrw, hrw2]
      nlinarith
    have h1 := Int.ceil_lt_add_one
      (2 * z ^ 2 * (0.03 : ℝ) * (1 - 0.03) / (0.03 * 0.05) ^ 2)
    have h2 := Int.le_ceil
      ((2 * ((0.03 + 0.03 * (1 + 0.05)) / 2) *
          (1 - (0.03 + 0.03 * (1 + 0.05)) / 2) * z ^ 2) /
        (0.03 * (1 + 0.05) - 0.03) ^ 2)
    exact_mod_cast lt_of_lt_of_le (lt_of_lt_of_le h1 hmid) h2
  have hcoreA : normalInverseCDFcore (39 / 40) = nicCentral (39 / 40) := by
    rw [normalInverseCDFcore, if_neg (by norm_num [pLow]),
      if_pos (by norm_num [pHigh, pLow])]
  have hcoreB : normalInverseCDFcore 0.8 = nicCentral 0.8 := by
    rw [normalInverseCDFcore, if_neg (by norm_num [pLow]),
      if_pos (by norm_num [pHigh, pLow])]
  have hrate : convRate ⟨1000, 30, 30000⟩ = 0.03 := by
    simp only [convRate]
    norm_num
  have harg1 : (1 : ℝ) - (1 - 0.95) / 2 = 39 / 40 := by norm_num
  have harg2 : (1 : ℝ) - 0.05 / 2 = 39 / 40 := by norm_num
  have hz : (1 : ℝ) ≤ nicCentral (39 / 40) + nicCentral 0.8 := by
    rw [nicCentral, nicCentral]
    norm_num [nicCentralNum, nicCentralDen]
  simp only [calculateConversionSignificance, calculateRequiredSampleSize,
    hrate, harg1, harg2, hcoreA, hcoreB, ite_self]
  exact ne_of_lt (hgap _ hz)

/-- C5 as amended: the inline recommendation of
`calculateConversionSignificance` equals, for every input, the 80%-power,
5%-relative-MDE z-test formula anchored on the variance of the control's
observed rate (falling back to 3% when that rate is 0) at significance
`1 - confidenceLevel` — the formula `requiredSampleSizeBaselineVariance`,
which shares the z-quantiles and the `(baseRate·mde)²` denominator with
`calculateRequiredSampleSize` but not its pooled variance term. -/
theorem c5_inline_formula (control variant : VariantStats)
    (confidenceLevel : ℝ) :
    (calculateConversionSignificance control variant
        confidenceLevel).recommendedSampleSize =
      requiredSampleSizeBaselineVariance
        (if convRate control > 0 then convRate control else 0.03) 0.05 0.8
        (1 - confidenceLevel) := by
  simp only [calculateConversionSignificance, requiredSampleSizeBaselineVariance]

/-! ## C6 — revenue variance estimate selection -/

/-- Counterexample to C6 as stated: with singleton raw-revenue arrays (length
1 < 2 in both arms) the claim requires the `RPV²` fallback, but the source's
branch condition is `length > 0`, so the Bessel path runs and divides by
`n - 1 = 0` (NaN in JS, 0 in this model) — the result is not the `RPV²`
pair. -/
theorem c6_counterexample :
    ¬ (2 ≤ ([(100 : ℝ)] : List ℝ).length) ∧
    rpv ⟨1, 0, 100⟩ > 0 ∧
    revenueVariances ⟨1, 0, 100⟩ ⟨1, 0, 200⟩ [(100 : ℝ)] [(200 : ℝ)] ≠
      (rpv ⟨1, 0, 100⟩ * rpv ⟨1, 0, 100⟩, rpv ⟨1, 0, 200⟩ * rpv ⟨1, 0, 200⟩) := by
  have hr1 : rpv (⟨1, 0, 100⟩ : VariantStats) = 100 := by
    simp [rpv]
  have hr2 : rpv (⟨1, 0, 200⟩ : VariantStats) = 200 := by
    simp [rpv]
  refine ⟨by simp, by rw [hr1]; norm_num, ?_⟩
  have hval : revenueVariances ⟨1, 0, 100⟩ ⟨1, 0, 200⟩ [(100 : ℝ)] [(200 : ℝ)] =
      (0, 0) := by
    simp [revenueVariances, sampleVariance]
  rw [hval, hr1, hr2]
  intro h
  have := congrArg Prod.fst h
  norm_num at this

/-- C6 as amended: `calculateRevenueSignificance` takes the Bessel-corrected
sample-variance path exactly when **both** raw arrays are non-empty (length
≥ 1, not ≥ 2; for singleton arrays the Bessel divisor `n - 1` is 0 and the
variance is undefined — NaN in JS, 0 here), and in every other case (either
array empty) it falls back to the `RPV²` approximation per arm (0 for an arm
with `RPV = 0`). -/
theorem c6_variance_selection (control variant : VariantStats)
    (cr vr : List ℝ) :
    (cr ≠ [] → vr ≠ [] →
      revenueVariances control variant cr vr =
        (sampleVariance cr, sampleVariance vr)) ∧
    (cr = [] ∨ vr = [] →
      revenueVariances control variant cr vr =
        (if rpv control > 0 then rpv control * rpv control else 0,
         if rpv variant > 0 then rpv variant * rpv variant else 0)) := by
  constructor
  · intro h1 h2
    rw [revenueVariances, if_pos]
    exact ⟨List.length_pos.mpr h1, List.length_pos.mpr h2⟩
  · intro h
    rw [revenueVariances, if_neg]
    rcases h with h | h <;> simp [h]

/-- Concrete instantiation of C6 as amended: two-element arrays take the
Bessel path, and an empty control array takes the `RPV²` fallback. -/
theorem c6_witness :
    revenueVariances ⟨10, 0, 100⟩ ⟨10, 0, 200⟩ [(5 : ℝ), 7] [(3 : ℝ), 4] =
      (sampleVariance [(5 : ℝ), 7], sampleVariance [(3 : ℝ), 4]) ∧
    revenueVariances ⟨10, 0, 100⟩ ⟨10, 0, 200⟩ ([] : List ℝ) [(3 : ℝ), 4] =
      (if rpv ⟨10, 0, 100⟩ > 0 then rpv ⟨10, 0, 100⟩ * rpv ⟨10, 0, 100⟩ else 0,
       if rpv ⟨10, 0, 200⟩ > 0 then rpv ⟨10, 0, 200⟩ * rpv ⟨10, 0, 200⟩ else 0) := by
  constructor
  · exact (c6_variance_selection _ _ _ _).1 (by simp) (by simp)
  · exact (c6_variance_selection _ _ _ _).2 (Or.inl rfl)

/-! ## C8 — inverse normal CDF contract -/

/-- C8: `normalInverseCDF` returns negative infinity for every `p ≤ 0` and
positive infinity for every `p ≥ 1`; it is exactly 0 at `p = 0.5`; and at
`p = 0.975` it is within 0.005 of 1.96 (the central rational branch evaluates
to ≈ 1.95996). -/
theorem c8_inverse_cdf_contract :
    (∀ p : ℝ, p ≤ 0 → normalInverseCDF p = RInf.negInf) ∧
    (∀ p : ℝ, 1 ≤ p → normalInverseCDF p = RInf.posInf) ∧
    normalInverseCDF 0.5 = RInf.val 0 ∧
    (∃ x : ℝ, normalInverseCDF 0.975 = RInf.val x ∧ |x - 1.96| < 0.005) := by
  refine ⟨?_, ?_, ?_, ?_⟩
  · intro p hp
    rw [normalInverseCDF, if_pos hp]
  · intro p hp
    rw [normalInverseCDF, if_neg (by linarith), if_pos hp]
  · have hcore : normalInverseCDFcore 0.5 = nicCentral 0.5 := by
      rw [normalInverseCDFcore, if_neg (by norm_num [pLow]),
        if_pos (by norm_num [pHigh, pLow])]
    have hval : nicCentral 0.5 = 0 := by
      simp only [nicCentral, nicCentralNum, nicCentralDen]
      norm_num
    rw [normalInverseCDF, if_neg (by norm_num), if_neg (by norm_num), hcore,
      hval]
  · refine ⟨normalInverseCDFcore 0.975, ?_, ?_⟩
    · rw [normalInverseCDF, if_neg (by norm_num), if_neg (by norm_num)]
    · have hcore : normalInverseCDFcore 0.975 = nicCentral 0.975 := by
        rw [normalInverseCDFcore, if_neg (by norm_num [pLow]),
          if_pos (by norm_num [pHigh, pLow])]
      rw [hcore]
      rw [abs_lt]
      constructor <;> norm_num [nicCentral, nicCentralNum, nicCentralDen]

/-- Concrete instantiation of C8's guarded branches at `p = -1` and
`p = 2`. -/
theorem c8_witness :
    normalInverseCDF (-1) = RInf.negInf ∧ normalInverseCDF 2 = RInf.posInf := by
  constructor
  · exact c8_inverse_cdf_contract.1 (-1) (by norm_num)
  · exact c8_inverse_cdf_contract.2.1 2 (by norm_num)



/-! ## C9 — monotonicity machinery for `calculateRequiredSampleSize`

The inverse-CDF approximation is shown monotone on `[1/2, 1)` by exhibiting
exact-coefficient positivity certificates for the derivative numerators of
both rational branches (every coefficient of the polynomial re-expanded
around the relevant interval end is nonnegative), a mean-value argument on
each branch, and an explicit `exp`-Taylor bound for the branch seam. -/

theorem centralDerivNum_pos (r : ℝ) (hr : r ≤ 0.2264) :
    0 < (nicP r + 2 * r * nicPd r) * nicCentralDen r - 2 * r * nicP r * nicQd r := by
  have hs : 0 ≤ (0.2264 - r) := by linarith
  have hid : (nicP r + 2 * r * nicPd r) * nicCentralDen r - 2 * r * nicP r * nicQd r =
      ((1376649055238658088371000753717581248019651527926613693 : ℝ) / 11641532182693481445312500000000000000000000000000000000000) + (0.2264 - r) * (((24261676976536360523250356936428396660102620790920833 : ℝ) / 1862645149230957031250000000000000000000000000000000000) + (0.2264 - r) * (((107901138118158497994866155659574595586078790042451 : ℝ) / 186264514923095703125000000000000000000000000000000) + (0.2264 - r) * (((1987413991103902067355069592906296795636275754533 : ℝ) / 149011611938476562500000000000000000000000000000) + (0.2264 - r) * (((82249216747706451440360041265643157105612266743 : ℝ) / 476837158203125000000000000000000000000000000) + (0.2264 - r) * (((2408239833434214579779896478403228871383744899 : ℝ) / 1907348632812500000000000000000000000000000) + (0.2264 - r) * (((99014032983585008016634959809130047075107 : ℝ) / 19073486328125000000000000000000000000) + (0.2264 - r) * (((660425058428832234099365794337200009123 : ℝ) / 61035156250000000000000000000000000) + (0.2264 - r) * (((4614815119568799659825786964114178057 : ℝ) / 390625000000000000000000000000000) + (0.2264 - r) * (((722215853997437967610310751913713 : ℝ) / 312500000000000000000000000000) + (0.2264 - r) * (((337895070105013025370657518979 : ℝ) / 156250000000000000000000000))))))))))) := by
    simp only [nicP, nicPd, nicCentralDen, nicQd]
    ring
  rw [hid]
  have t10 : (0:ℝ) ≤ ((337895070105013025370657518979 : ℝ) / 156250000000000000000000000) := by norm_num
  have t9 : (0:ℝ) ≤ ((722215853997437967610310751913713 : ℝ) / 312500000000000000000000000000) + (0.2264 - r) * (((337895070105013025370657518979 : ℝ) / 156250000000000000000000000)) :=
    add_nonneg (by norm_num) (mul_nonneg hs t10)
  have t8 : (0:ℝ) ≤ ((4614815119568799659825786964114178057 : ℝ) / 390625000000000000000000000000000) + (0.2264 - r) * (((722215853997437967610310751913713 : ℝ) / 312500000000000000000000000000) + (0.2264 - r) * (((337895070105013025370657518979 : ℝ) / 156250000000000000000000000))) :=
    add_nonneg (by norm_num) (mul_nonneg hs t9)
  have t7 : (0:ℝ) ≤ ((660425058428832234099365794337200009123 : ℝ) / 61035156250000000000000000000000000) + (0.2264 - r) * (((4614815119568799659825786964114178057 : ℝ) / 390625000000000000000000000000000) + (0.2264 - r) * (((722215853997437967610310751913713 : ℝ) / 312500000000000000000000000000) + (0.2264 - r) * (((337895070105013025370657518979 : ℝ) / 156250000000000000000000000)))) :=
    add_nonneg (by norm_num) (mul_nonneg hs t8)
  have t6 : (0:ℝ) ≤ ((99014032983585008016634959809130047075107 : ℝ) / 19073486328125000000000000000000000000) + (0.2264 - r) * (((660425058428832234099365794337200009123 : ℝ) / 61035156250000000000000000000000000) + (0.2264 - r) * (((4614815119568799659825786964114178057 : ℝ) / 390625000000000000000000000000000) + (0.2264 - r) * (((722215853997437967610310751913713 : ℝ) / 312500000000000000000000000000) + (0.2264 - r) * (((337895070105013025370657518979 : ℝ) / 156250000000000000000000000))))) :=
    add_nonneg (by norm_num) (mul_nonneg hs t7)
  have t5 : (0:ℝ) ≤ ((2408239833434214579779896478403228871383744899 : ℝ) / 1907348632812500000000000000000000000000000) + (0.2264 - r) * (((99014032983585008016634959809130047075107 : ℝ) / 19073486328125000000000000000000000000) + (0.2264 - r) * (((660425058428832234099365794337200009123 : ℝ) / 61035156250000000000000000000000000) + (0.2264 - r) * (((4614815119568799659825786964114178057 : ℝ) / 390625000000000000000000000000000) + (0.2264 - r) * (((722215853997437967610310751913713 : ℝ) / 312500000000000000000000000000) + (0.2264 - r) * (((337895070105013025370657518979 : ℝ) / 156250000000000000000000000)))))) :=
    add_nonneg (by norm_num) (mul_nonneg hs t6)
  have t4 : (0:ℝ) ≤ ((82249216747706451440360041265643157105612266743 : ℝ) / 476837158203125000000000000000000000000000000) + (0.2264 - r) * (((2408239833434214579779896478403228871383744899 : ℝ) / 1907348632812500000000000000000000000000000) + (0.2264 - r) * (((99014032983585008016634959809130047075107 : ℝ) / 19073486328125000000000000000000000000) + (0.2264 - r) * (((660425058428832234099365794337200009123 : ℝ) / 61035156250000000000000000000000000) + (0.2264 - r) * (((4614815119568799659825786964114178057 : ℝ) / 390625000000000000000000000000000) + (0.2264 - r) * (((722215853997437967610310751913713 : ℝ) / 312500000000000000000000000000) + (0.2264 - r) * (((337895070105013025370657518979 : ℝ) / 156250000000000000000000000))))))) :=
    add_nonneg (by norm_num) (mul_nonneg hs t5)
  have t3 : (0:ℝ) ≤ ((1987413991103902067355069592906296795636275754533 : ℝ) / 149011611938476562500000000000000000000000000000) + (0.2264 - r) * (((82249216747706451440360041265643157105612266743 : ℝ) / 476837158203125000000000000000000000000000000) + (0.2264 - r) * (((2408239833434214579779896478403228871383744899 : ℝ) / 1907348632812500000000000000000000000000000) + (0.2264 - r) * (((99014032983585008016634959809130047075107 : ℝ) / 19073486328125000000000000000000000000) + (0.2264 - r) * (((660425058428832234099365794337200009123 : ℝ) / 61035156250000000000000000000000000) + (0.2264 - r) * (((4614815119568799659825786964114178057 : ℝ) / 390625000000000000000000000000000) + (0.2264 - r) * (((722215853997437967610310751913713 : ℝ) / 312500000000000000000000000000) + (0.2264 - r) * (((337895070105013025370657518979 : ℝ) / 156250000000000000000000000)))))))) :=
    add_nonneg (by norm_num) (mul_nonneg hs t4)
  have t2 : (0:ℝ) ≤ ((107901138118158497994866155659574595586078790042451 : ℝ) / 186264514923095703125000000000000000000000000000000) + (0.2264 - r) * (((1987413991103902067355069592906296795636275754533 : ℝ) / 149011611938476562500000000000000000000000000000) + (0.2264 - r) * (((82249216747706451440360041265643157105612266743 : ℝ) / 476837158203125000000000000000000000000000000) + (0.2264 - r) * (((2408239833434214579779896478403228871383744899 : ℝ) / 1907348632812500000000000000000000000000000) + (0.2264 - r) * (((99014032983585008016634959809130047075107 : ℝ) / 19073486328125000000000000000000000000) + (0.2264 - r) * (((660425058428832234099365794337200009123 : ℝ) / 61035156250000000000000000000000000) + (0.2264 - r) * (((4614815119568799659825786964114178057 : ℝ) / 390625000000000000000000000000000) + (0.2264 - r) * (((722215853997437967610310751913713 : ℝ) / 312500000000000000000000000000) + (0.2264 - r) * (((337895070105013025370657518979 : ℝ) / 156250000000000000000000000))))))))) :=
    add_nonneg (by norm_num) (mul_nonneg hs t3)
  have t1 : (0:ℝ) ≤ ((24261676976536360523250356936428396660102620790920833 : ℝ) / 1862645149230957031250000000000000000000000000000000000) + (0.2264 - r) * (((107901138118158497994866155659574595586078790042451 : ℝ) / 186264514923095703125000000000000000000000000000000) + (0.2264 - r) * (((1987413991103902067355069592906296795636275754533 : ℝ) / 149011611938476562500000000000000000000000000000) + (0.2264 - r) * (((82249216747706451440360041265643157105612266743 : ℝ) / 476837158203125000000000000000000000000000000) + (0.2264 - r) * (((2408239833434214579779896478403228871383744899 : ℝ) / 1907348632812500000000000000000000000000000) + (0.2264 - r) * (((99014032983585008016634959809130047075107 : ℝ) / 19073486328125000000000000000000000000) + (0.2264 - r) * (((660425058428832234099365794337200009123 : ℝ) / 61035156250000000000000000000000000) + (0.2264 - r) * (((4614815119568799659825786964114178057 : ℝ) / 390625000000000000000000000000000) + (0.2264 - r) * (((722215853997437967610310751913713 : ℝ) / 312500000000000000000000000000) + (0.2264 - r) * (((337895070105013025370657518979 : ℝ) / 156250000000000000000000000)))))))))) :=
    add_nonneg (by norm_num) (mul_nonneg hs t2)
  exact add_pos_of_pos_of_nonneg (by norm_num) (mul_nonneg hs t1)

theorem centralDen_pos (r : ℝ) (hr : r ≤ 0.2264) :
    0 < nicCentralDen r := by
  have hs : 0 ≤ (0.2264 - r) := by linarith
  have hid : nicCentralDen r =
      ((395603922831896700882344721 : ℝ) / 152587890625000000000000000000) + (0.2264 - r) * (((4640992848235636819318963 : ℝ) / 24414062500000000000000000) + (0.2264 - r) * (((43195676541634033676289 : ℝ) / 9765625000000000000000) + (0.2264 - r) * (((291325298217273032067 : ℝ) / 7812500000000000000) + (0.2264 - r) * (((1248986162730640801 : ℝ) / 12500000000000000) + (0.2264 - r) * (((2723804939911203 : ℝ) / 50000000000000)))))) := by
    simp only [nicCentralDen]
    ring
  rw [hid]
  have t5 : (0:ℝ) ≤ ((2723804939911203 : ℝ) / 50000000000000) := by norm_num
  have t4 : (0:ℝ) ≤ ((1248986162730640801 : ℝ) / 12500000000000000) + (0.2264 - r) * (((2723804939911203 : ℝ) / 50000000000000)) :=
    add_nonneg (by norm_num) (mul_nonneg hs t5)
  have t3 : (0:ℝ) ≤ ((291325298217273032067 : ℝ) / 7812500000000000000) + (0.2264 - r) * (((1248986162730640801 : ℝ) / 12500000000000000) + (0.2264 - r) * (((2723804939911203 : ℝ) / 50000000000000))) :=
    add_nonneg (by norm_num) (mul_nonneg hs t4)
  have t2 : (0:ℝ) ≤ ((43195676541634033676289 : ℝ) / 9765625000000000000000) + (0.2264 - r) * (((291325298217273032067 : ℝ) / 7812500000000000000) + (0.2264 - r) * (((1248986162730640801 : ℝ) / 12500000000000000) + (0.2264 - r) * (((2723804939911203 : ℝ) / 50000000000000)))) :=
    add_nonneg (by norm_num) (mul_nonneg hs t3)
  have t1 : (0:ℝ) ≤ ((4640992848235636819318963 : ℝ) / 24414062500000000000000000) + (0.2264 - r) * (((43195676541634033676289 : ℝ) / 9765625000000000000000) + (0.2264 - r) * (((291325298217273032067 : ℝ) / 7812500000000000000) + (0.2264 - r) * (((1248986162730640801 : ℝ) / 12500000000000000) + (0.2264 - r) * (((2723804939911203 : ℝ) / 50000000000000))))) :=
    add_nonneg (by norm_num) (mul_nonneg hs t2)
  exact add_pos_of_pos_of_nonneg (by norm_num) (mul_nonneg hs t1)

theorem tailDerivNum_pos (q : ℝ) (hr : 2.7259 ≤ q) :
    0 < nicTailNum q * nicDd q - nicCd q * nicTailDen q := by
  have hs : 0 ≤ (q - 2.7259) := by linarith
  have hid : nicTailNum q * nicDd q - nicCd q * nicTailDen q =
      ((76766836785667687594528744620386543686704647586535618779168649400369943 : ℝ) / 50000000000000000000000000000000000000000000000000000000000000000000) + (q - 2.7259) * (((1246854990055460310368934603489448227371290278625378242193671919077 : ℝ) / 625000000000000000000000000000000000000000000000000000000000000) + (q - 2.7259) * (((134349416190635560509369828396952218525921593461472691061842921 : ℝ) / 125000000000000000000000000000000000000000000000000000000000) + (q - 2.7259) * (((1932374411671203279038398933412486854944296617278551925019 : ℝ) / 6250000000000000000000000000000000000000000000000000000) + (q - 2.7259) * (((25511871670649059774565001362581633322604559029078641 : ℝ) / 500000000000000000000000000000000000000000000000000) + (q - 2.7259) * (((302166078176445464221428292922638590644419570099 : ℝ) / 62500000000000000000000000000000000000000000000) + (q - 2.7259) * (((3134868894825799522303311971461303793064761 : ℝ) / 12500000000000000000000000000000000000000000) + (q - 2.7259) * (((3963954533990888172986545543473874397 : ℝ) / 625000000000000000000000000000000000000) + (q - 2.7259) * (((30301515468030857381920750904183 : ℝ) / 500000000000000000000000000000000000))))))))) := by
    simp only [nicTailNum, nicDd, nicCd, nicTailDen]
    ring
  rw [hid]
  have t8 : (0:ℝ) ≤ ((30301515468030857381920750904183 : ℝ) / 500000000000000000000000000000000000) := by norm_num
  have t7 : (0:ℝ) ≤ ((3963954533990888172986545543473874397 : ℝ) / 625000000000000000000000000000000000000) + (q - 2.7259) * (((30301515468030857381920750904183 : ℝ) / 500000000000000000000000000000000000)) :=
    add_nonneg (by norm_num) (mul_nonneg hs t8)
  have t6 : (0:ℝ) ≤ ((3134868894825799522303311971461303793064761 : ℝ) / 12500000000000000000000000000000000000000000) + (q - 2.7259) * (((3963954533990888172986545543473874397 : ℝ) / 625000000000000000000000000000000000000) + (q - 2.7259) * (((30301515468030857381920750904183 : ℝ) / 500000000000000000000000000000000000))) :=
    add_nonneg (by norm_num) (mul_nonneg hs t7)
  have t5 : (0:ℝ) ≤ ((302166078176445464221428292922638590644419570099 : ℝ) / 62500000000000000000000000000000000000000000000) + (q - 2.7259) * (((3134868894825799522303311971461303793064761 : ℝ) / 12500000000000000000000000000000000000000000) + (q - 2.7259) * (((3963954533990888172986545543473874397 : ℝ) / 625000000000000000000000000000000000000) + (q - 2.7259) * (((30301515468030857381920750904183 : ℝ) / 500000000000000000000000000000000000)))) :=
    add_nonneg (by norm_num) (mul_nonneg hs t6)
  have t4 : (0:ℝ) ≤ ((25511871670649059774565001362581633322604559029078641 : ℝ) / 500000000000000000000000000000000000000000000000000) + (q - 2.7259) * (((302166078176445464221428292922638590644419570099 : ℝ) / 62500000000000000000000000000000000000000000000) + (q - 2.7259) * (((3134868894825799522303311971461303793064761 : ℝ) / 12500000000000000000000000000000000000000000) + (q - 2.7259) * (((3963954533990888172986545543473874397 : ℝ) / 625000000000000000000000000000000000000) + (q - 2.7259) * (((30301515468030857381920750904183 : ℝ) / 500000000000000000000000000000000000))))) :=
    add_nonneg (by norm_num) (mul_nonneg hs t5)
  have t3 : (0:ℝ) ≤ ((1932374411671203279038398933412486854944296617278551925019 : ℝ) / 6250000000000000000000000000000000000000000000000000000) + (q - 2.7259) * (((25511871670649059774565001362581633322604559029078641 : ℝ) / 500000000000000000000000000000000000000000000000000) + (q - 2.7259) * (((302166078176445464221428292922638590644419570099 : ℝ) / 62500000000000000000000000000000000000000000000) + (q - 2.7259) * (((3134868894825799522303311971461303793064761 : ℝ) / 12500000000000000000000000000000000000000000) + (q - 2.7259) * (((3963954533990888172986545543473874397 : ℝ) / 625000000000000000000000000000000000000) + (q - 2.7259) * (((30301515468030857381920750904183 : ℝ) / 500000000000000000000000000000000000)))))) :=
    add_nonneg (by norm_num) (mul_nonneg hs t4)
  have t2 : (0:ℝ) ≤ ((134349416190635560509369828396952218525921593461472691061842921 : ℝ) / 125000000000000000000000000000000000000000000000000000000000) + (q - 2.7259) * (((1932374411671203279038398933412486854944296617278551925019 : ℝ) / 6250000000000000000000000000000000000000000000000000000) + (q - 2.7259) * (((25511871670649059774565001362581633322604559029078641 : ℝ) / 500000000000000000000000000000000000000000000000000) + (q - 2.7259) * (((302166078176445464221428292922638590644419570099 : ℝ) / 62500000000000000000000000000000000000000000000) + (q - 2.7259) * (((3134868894825799522303311971461303793064761 : ℝ) / 12500000000000000000000000000000000000000000) + (q - 2.7259) * (((3963954533990888172986545543473874397 : ℝ) / 625000000000000000000000000000000000000) + (q - 2.7259) * (((30301515468030857381920750904183 : ℝ) / 500000000000000000000000000000000000))))))) :=
    add_nonneg (by norm_num) (mul_nonneg hs t3)
  have t1 : (0:ℝ) ≤ ((1246854990055460310368934603489448227371290278625378242193671919077 : ℝ) / 625000000000000000000000000000000000000000000000000000000000000) + (q - 2.7259) * (((134349416190635560509369828396952218525921593461472691061842921 : ℝ) / 125000000000000000000000000000000000000000000000000000000000) + (q - 2.7259) * (((1932374411671203279038398933412486854944296617278551925019 : ℝ) / 6250000000000000000000000000000000000000000000000000000) + (q - 2.7259) * (((25511871670649059774565001362581633322604559029078641 : ℝ) / 500000000000000000000000000000000000000000000000000) + (q - 2.7259) * (((302166078176445464221428292922638590644419570099 : ℝ) / 62500000000000000000000000000000000000000000000) + (q - 2.7259) * (((3134868894825799522303311971461303793064761 : ℝ) / 12500000000000000000000000000000000000000000) + (q - 2.7259) * (((3963954533990888172986545543473874397 : ℝ) / 625000000000000000000000000000000000000) + (q - 2.7259) * (((30301515468030857381920750904183 : ℝ) / 500000000000000000000000000000000000)))))))) :=
    add_nonneg (by norm_num) (mul_nonneg hs t2)
  exact add_pos_of_pos_of_nonneg (by norm_num) (mul_nonneg hs t1)

theorem nicP_hasDerivAt (x : ℝ) : HasDerivAt nicP (nicPd x) x := by
  have h0 : HasDerivAt (fun r : ℝ => (-39.69683028665376) * r + 220.9460984245205)
      (-39.69683028665376) x := by
    simpa using ((hasDerivAt_id x).const_mul (-39.69683028665376 : ℝ)).add_const
      (220.9460984245205 : ℝ)
  have h1 := (h0.mul (hasDerivAt_id x)).add_const (-275.9285104469687 : ℝ)
  have h2 := (h1.mul (hasDerivAt_id x)).add_const (138.3577518672690 : ℝ)
  have h3 := (h2.mul (hasDerivAt_id x)).add_const (-30.66479806614716 : ℝ)
  have h4 := (h3.mul (hasDerivAt_id x)).add_const (2.506628277459239 : ℝ)
  convert h4 using 1
  simp only [nicPd, id_eq]
  ring

theorem nicCentralDen_hasDerivAt (x : ℝ) :
    HasDerivAt nicCentralDen (nicQd x) x := by
  have h0 : HasDerivAt (fun r : ℝ => (-54.47609879822406) * r + 161.5858368580409)
      (-54.47609879822406) x := by
    simpa using ((hasDerivAt_id x).const_mul (-54.47609879822406 : ℝ)).add_const
      (161.5858368580409 : ℝ)
  have h1 := (h0.mul (hasDerivAt_id x)).add_const (-155.6989798598866 : ℝ)
  have h2 := (h1.mul (hasDerivAt_id x)).add_const (66.80131188771972 : ℝ)
  have h3 := (h2.mul (hasDerivAt_id x)).add_const (-13.28068155288572 : ℝ)
  have h4 := (h3.mul (hasDerivAt_id x)).add_const (1 : ℝ)
  convert h4 using 1
  simp only [nicQd, id_eq]
  ring

theorem nicCentral_hasDerivAt (p : ℝ)
    (hden : nicCentralDen ((p - 0.5) * (p - 0.5)) ≠ 0) :
    HasDerivAt nicCentral
      (((nicP ((p - 0.5) * (p - 0.5)) +
          2 * ((p - 0.5) * (p - 0.5)) * nicPd ((p - 0.5) * (p - 0.5))) *
            nicCentralDen ((p - 0.5) * (p - 0.5)) -
        2 * ((p - 0.5) * (p - 0.5)) * nicP ((p - 0.5) * (p - 0.5)) *
            nicQd ((p - 0.5) * (p - 0.5))) /
        nicCentralDen ((p - 0.5) * (p - 0.5)) ^ 2) p := by
  have hq : HasDerivAt (fun y : ℝ => y - 0.5) 1 p := (hasDerivAt_id p).sub_const 0.5
  have hr : HasDerivAt (fun y : ℝ => (y - 0.5) * (y - 0.5))
      (1 * (p - 0.5) + (p - 0.5) * 1) p := hq.mul hq
  have hP : HasDerivAt (fun y : ℝ => nicP ((y - 0.5) * (y - 0.5)))
      (nicPd ((p - 0.5) * (p - 0.5)) * (1 * (p - 0.5) + (p - 0.5) * 1)) p :=
    (nicP_hasDerivAt _).comp p hr
  have hQc : HasDerivAt (fun y : ℝ => nicCentralDen ((y - 0.5) * (y - 0.5)))
      (nicQd ((p - 0.5) * (p - 0.5)) * (1 * (p - 0.5) + (p - 0.5) * 1)) p :=
    (nicCentralDen_hasDerivAt _).comp p hr
  have hN := hP.mul hq
  have hdiv := hN.div hQc hden
  have hfun : (fun y : ℝ => nicP ((y - 0.5) * (y - 0.5)) * (y - 0.5) /
      nicCentralDen ((y - 0.5) * (y - 0.5))) = nicCentral := by
    funext y
    rfl
  rw [hfun] at hdiv
  convert hdiv using 1
  field_simp
  ring

theorem nicCentral_strictMonoOn :
    StrictMonoOn nicCentral (Set.Icc (0.5 : ℝ) 0.97575) := by
  apply strictMonoOn_of_deriv_pos (convex_Icc _ _)
  · intro p hp
    have hrle : (p - 0.5) * (p - 0.5) ≤ 0.2264 := by
      rcases hp with ⟨ha, hb⟩
      nlinarith
    exact (nicCentral_hasDerivAt p
      (ne_of_gt (centralDen_pos _ hrle))).continuousAt.continuousWithinAt
  · intro p hp
    rw [interior_Icc, Set.mem_Ioo] at hp
    have hrle : (p - 0.5) * (p - 0.5) ≤ 0.2264 := by
      rcases hp with ⟨ha, hb⟩
      nlinarith
    have hden := centralDen_pos ((p - 0.5) * (p - 0.5)) hrle
    rw [(nicCentral_hasDerivAt p (ne_of_gt hden)).deriv]
    exact div_pos (centralDerivNum_pos _ hrle) (by positivity)


theorem nicTailNum_hasDerivAt (x : ℝ) : HasDerivAt nicTailNum (nicCd x) x := by
  have h0 : HasDerivAt
      (fun q : ℝ => (-0.007784894002430293) * q + (-0.3223964580411365))
      (-0.007784894002430293) x := by
    simpa using ((hasDerivAt_id x).const_mul (-0.007784894002430293 : ℝ)).add_const
      (-0.3223964580411365 : ℝ)
  have h1 := (h0.mul (hasDerivAt_id x)).add_const (-2.400758277161838 : ℝ)
  have h2 := (h1.mul (hasDerivAt_id x)).add_const (-2.549732539343734 : ℝ)
  have h3 := (h2.mul (hasDerivAt_id x)).add_const (4.374664141464968 : ℝ)
  have h4 := (h3.mul (hasDerivAt_id x)).add_const (2.938163982698783 : ℝ)
  convert h4 using 1
  simp only [nicCd, id_eq]
  ring

theorem nicTailDen_hasDerivAt (x : ℝ) : HasDerivAt nicTailDen (nicDd x) x := by
  have h0 : HasDerivAt
      (fun q : ℝ => (0.007784695709041462 : ℝ) * q + 0.3224671290700398)
      0.007784695709041462 x := by
    simpa using ((hasDerivAt_id x).const_mul (0.007784695709041462 : ℝ)).add_const
      (0.3224671290700398 : ℝ)
  have h1 := (h0.mul (hasDerivAt_id x)).add_const (2.445134137142996 : ℝ)
  have h2 := (h1.mul (hasDerivAt_id x)).add_const (3.754408661907416 : ℝ)
  have h3 := (h2.mul (hasDerivAt_id x)).add_const (1 : ℝ)
  convert h3 using 1
  simp only [nicDd, id_eq]
  ring

theorem nicTailDen_pos (q : ℝ) (hq : 0 ≤ q) : 0 < nicTailDen q := by
  have u1 : (0:ℝ) ≤ 0.007784695709041462 * q + 0.3224671290700398 :=
    add_nonneg (mul_nonneg (by norm_num) hq) (by norm_num)
  have u2 : (0:ℝ) ≤ (0.007784695709041462 * q + 0.3224671290700398) * q +
      2.445134137142996 :=
    add_nonneg (mul_nonneg u1 hq) (by norm_num)
  have u3 : (0:ℝ) ≤ ((0.007784695709041462 * q + 0.3224671290700398) * q +
      2.445134137142996) * q + 3.754408661907416 :=
    add_nonneg (mul_nonneg u2 hq) (by norm_num)
  have u4 : (0:ℝ) < (((0.007784695709041462 * q + 0.3224671290700398) * q +
      2.445134137142996) * q + 3.754408661907416) * q + 1 :=
    add_pos_of_nonneg_of_pos (mul_nonneg u3 hq) one_pos
  simpa [nicTailDen] using u4

theorem nicTailVal_hasDerivAt (q : ℝ) (hden : nicTailDen q ≠ 0) :
    HasDerivAt nicTailVal
      ((nicTailNum q * nicDd q - nicCd q * nicTailDen q) / nicTailDen q ^ 2) q := by
  have hC := (nicTailNum_hasDerivAt q).neg
  have hdiv := hC.div (nicTailDen_hasDerivAt q) hden
  have hfun : (fun y : ℝ => -(nicTailNum y) / nicTailDen y) = nicTailVal := rfl
  rw [hfun] at hdiv
  convert hdiv using 1
  ring

theorem nicTailVal_strictMonoOn :
    StrictMonoOn nicTailVal (Set.Ici (2.7259 : ℝ)) := by
  apply strictMonoOn_of_deriv_pos (convex_Ici _)
  · intro q hq
    rw [Set.mem_Ici] at hq
    have hden := nicTailDen_pos q (by linarith)
    exact (nicTailVal_hasDerivAt q (ne_of_gt hden)).continuousAt.continuousWithinAt
  · intro q hq
    rw [interior_Ici, Set.mem_Ioi] at hq
    have hden := nicTailDen_pos q (by linarith)
    rw [(nicTailVal_hasDerivAt q (ne_of_gt hden)).deriv]
    exact div_pos (tailDerivNum_pos q hq.le) (by positivity)


theorem seam_values : nicCentral 0.97575 ≤ nicTailVal 2.727393867 := by
  simp only [nicCentral, nicCentralNum, nicCentralDen, nicTailVal, nicTailNum,
    nicTailDen]
  norm_num

theorem q_of_p_ge (p : ℝ) (h1 : 0.97575 < p) (h2 : p < 1)
    (hlog : Real.log 0.02425 ≤ -((2.727393867 : ℝ) ^ 2 / 2)) :
    2.727393867 ≤ Real.sqrt (-(2 * Real.log (1 - p))) := by
  have h1p : 0 < 1 - p := by linarith
  have hlt : Real.log (1 - p) < Real.log 0.02425 :=
    Real.log_lt_log h1p (by norm_num; linarith)
  have harg : (2.727393867 : ℝ) ^ 2 ≤ -(2 * Real.log (1 - p)) := by linarith
  calc (2.727393867 : ℝ) = Real.sqrt ((2.727393867 : ℝ) ^ 2) :=
        (Real.sqrt_sq (by norm_num)).symm
    _ ≤ Real.sqrt (-(2 * Real.log (1 - p))) := Real.sqrt_le_sqrt harg

theorem exp_taylor_x0 :
    Real.exp ((1438677305749213689 : ℝ) / 2000000000000000000) ≤ 2.05307497 := by
  have hx0 : |(1438677305749213689 : ℝ) / 2000000000000000000| ≤ 1 := by
    rw [abs_le]
    constructor <;> norm_num
  have hb : |Real.exp ((1438677305749213689 : ℝ) / 2000000000000000000) -
      ∑ i in Finset.range 13,
        ((1438677305749213689 : ℝ) / 2000000000000000000) ^ i / i.factorial| ≤
      |(1438677305749213689 : ℝ) / 2000000000000000000| ^ 13 *
        ((13 : ℕ).succ / ((13 : ℕ).factorial * 13)) :=
    Real.exp_bound hx0 (by norm_num)
  have h2 := (abs_le.mp hb).2
  have habs : |(1438677305749213689 : ℝ) / 2000000000000000000| =
      (1438677305749213689 : ℝ) / 2000000000000000000 :=
    abs_of_nonneg (by norm_num)
  rw [habs] at h2
  have hsum : ∑ i in Finset.range 13,
      ((1438677305749213689 : ℝ) / 2000000000000000000) ^ i / i.factorial +
      ((1438677305749213689 : ℝ) / 2000000000000000000) ^ 13 *
        ((13 : ℕ).succ / ((13 : ℕ).factorial * 13)) ≤ 2.05307497 := by
    simp only [Finset.sum_range_succ, Finset.sum_range_zero, Nat.factorial]
    norm_num
  linarith

theorem exp_qr_sq_half :
    Real.exp ((2.727393867 : ℝ) ^ 2 / 2) ≤ 4000 / 97 := by
  have hA : (2.727393867 : ℝ) ^ 2 / 2 =
      3 + (1438677305749213689 : ℝ) / 2000000000000000000 := by
    norm_num
  have hsplit : Real.exp ((2.727393867 : ℝ) ^ 2 / 2) =
      Real.exp 1 ^ 3 * Real.exp ((1438677305749213689 : ℝ) / 2000000000000000000) := by
    rw [hA, Real.exp_add]
    congr 1
    rw [show (3 : ℝ) = ((3 : ℕ) : ℝ) * 1 by norm_num, Real.exp_nat_mul]
  rw [hsplit]
  have hcube : Real.exp 1 ^ 3 ≤ (2.7182818286 : ℝ) ^ 3 :=
    pow_le_pow_left₀ (Real.exp_pos 1).le Real.exp_one_lt_d9.le 3
  have hmul := mul_le_mul hcube exp_taylor_x0 (Real.exp_pos _).le
    (by positivity)
  refine le_trans hmul ?_
  norm_num

theorem log_002425_le : Real.log 0.02425 ≤ -((2.727393867 : ℝ) ^ 2 / 2) := by
  rw [Real.log_le_iff_le_exp (by norm_num), Real.exp_neg]
  have h1 := inv_anti₀ (Real.exp_pos ((2.727393867 : ℝ) ^ 2 / 2)) exp_qr_sq_half
  have h2 : ((4000 : ℝ) / 97)⁻¹ = 97 / 4000 := by norm_num
  rw [h2] at h1
  have : (0.02425 : ℝ) ≤ 97 / 4000 := by norm_num
  linarith

/-- On `[1/2, pHigh]` the inverse-CDF core takes its central branch. -/
theorem core_eq_central (p : ℝ) (h1 : (0.5 : ℝ) ≤ p) (h2 : p ≤ 0.97575) :
    normalInverseCDFcore p = nicCentral p := by
  rw [normalInverseCDFcore,
    if_neg (show ¬ p < pLow by simp only [pLow, not_lt]; linarith),
    if_pos (show p ≤ pHigh by simp only [pHigh, pLow]; linarith)]

/-- Above `pHigh` the inverse-CDF core takes its high-tail branch, which is
`nicTailVal` at the transformed variable. -/
theorem core_eq_tail (p : ℝ) (h : (0.97575 : ℝ) < p) :
    normalInverseCDFcore p =
      nicTailVal (Real.sqrt (-(2 * Real.log (1 - p)))) := by
  rw [normalInverseCDFcore,
    if_neg (show ¬ p < pLow by simp only [pLow, not_lt]; linarith),
    if_neg (show ¬ p ≤ pHigh by simp only [pHigh, pLow, not_le]; linarith)]
  rfl

/-- The inverse-CDF approximation is monotone on `[1/2, 1)`: within the
central branch by the derivative certificate, within the tail by the tail
certificate, and across the seam through the explicit `log` bound. -/
theorem core_monotone_ge_half (p1 p2 : ℝ) (h1 : (0.5 : ℝ) ≤ p1)
    (h12 : p1 ≤ p2) (h2 : p2 < 1) :
    normalInverseCDFcore p1 ≤ normalInverseCDFcore p2 := by
  by_cases hc2 : p2 ≤ (0.97575 : ℝ)
  · rw [core_eq_central p1 h1 (h12.trans hc2),
      core_eq_central p2 (h1.trans h12) hc2]
    exact nicCentral_strictMonoOn.monotoneOn (Set.mem_Icc.mpr ⟨h1, h12.trans hc2⟩)
      (Set.mem_Icc.mpr ⟨h1.trans h12, hc2⟩) h12
  · push_neg at hc2
    rw [core_eq_tail p2 hc2]
    have hq2 := q_of_p_ge p2 hc2 h2 log_002425_le
    by_cases hc1 : p1 ≤ (0.97575 : ℝ)
    · rw [core_eq_central p1 h1 hc1]
      have s1 : nicCentral p1 ≤ nicCentral 0.97575 :=
        nicCentral_strictMonoOn.monotoneOn (Set.mem_Icc.mpr ⟨h1, hc1⟩)
          (Set.mem_Icc.mpr ⟨by norm_num, le_refl _⟩) hc1
      have s3 : nicTailVal 2.727393867 ≤
          nicTailVal (Real.sqrt (-(2 * Real.log (1 - p2)))) :=
        nicTailVal_strictMonoOn.monotoneOn
          (by simp only [Set.mem_Ici]; norm_num)
          (by simp only [Set.mem_Ici]; linarith) hq2
      linarith [seam_values]
    · push_neg at hc1
      rw [core_eq_tail p1 hc1]
      have hq1 := q_of_p_ge p1 hc1 (lt_of_le_of_lt h12 h2) log_002425_le
      have hmono : Real.sqrt (-(2 * Real.log (1 - p1))) ≤
          Real.sqrt (-(2 * Real.log (1 - p2))) := by
        apply Real.sqrt_le_sqrt
        have hlog : Real.log (1 - p2) ≤ Real.log (1 - p1) :=
          Real.log_le_log (by linarith) (by linarith)
        linarith
      exact nicTailVal_strictMonoOn.monotoneOn
        (by simp only [Set.mem_Ici]; linarith)
        (by simp only [Set.mem_Ici]; linarith) hmono

/-- The inverse-CDF approximation is nonnegative on `[1/2, 1)` (it is 0 at
`1/2` and monotone). -/
theorem core_nonneg_ge_half (p : ℝ) (h1 : (0.5 : ℝ) ≤ p) (h2 : p < 1) :
    0 ≤ normalInverseCDFcore p := by
  have hz : normalInverseCDFcore 0.5 = nicCentral 0.5 :=
    core_eq_central 0.5 le_rfl (by norm_num)
  have hval : nicCentral (0.5 : ℝ) = 0 := by
    simp only [nicCentral, nicCentralNum, nicCentralDen]
    norm_num
  have hm := core_monotone_ge_half 0.5 p le_rfl h1 h2
  rw [hz, hval] at hm
  exact hm

/-- The required sample size does not decrease when the relative MDE shrinks
(valid-rate domain `baseline·(1+mde) ≤ 1`). -/
theorem req_antitone_mde (b m1 m2 pw sg : ℝ) (hb : 0 < b) (hm1 : 0 < m1)
    (h12 : m1 ≤ m2) (hup : b * (1 + m2) ≤ 1) :
    calculateRequiredSampleSize b m2 pw sg ≤
      calculateRequiredSampleSize b m1 pw sg := by
  simp only [calculateRequiredSampleSize]
  apply Int.ceil_le_ceil
  have hm2 : 0 < m2 := lt_of_lt_of_le hm1 h12
  set S := normalInverseCDFcore (1 - sg / 2) + normalInverseCDFcore pw with hS
  have hS2 : (0:ℝ) ≤ S ^ 2 := sq_nonneg S
  have hd1 : (0:ℝ) < (b * (1 + m1) - b) ^ 2 := by
    have h : b * (1 + m1) - b = b * m1 := by ring
    rw [h]
    exact pow_pos (mul_pos hb hm1) 2
  have hd2 : (0:ℝ) < (b * (1 + m2) - b) ^ 2 := by
    have h : b * (1 + m2) - b = b * m2 := by ring
    rw [h]
    exact pow_pos (mul_pos hb hm2) 2
  rw [div_le_div_iff hd2 hd1]
  have hbm2 : b * m2 ≤ 1 - b := by nlinarith
  have hble : b ≤ 1 := by nlinarith
  have hbr : (0:ℝ) ≤ (1 - b) * (m1 + m2) + (1 - 2 * b) * m1 * m2 / 2 := by
    nlinarith [mul_nonneg hm1.le (sub_nonneg.mpr hbm2),
      mul_nonneg (sub_nonneg.mpr hble) hm2.le]
  nlinarith [mul_nonneg (mul_nonneg (mul_nonneg hS2 (pow_nonneg hb.le 3))
    (sub_nonneg.mpr h12)) hbr]

/-- The required sample size does not decrease when the baseline rate shrinks
(stated for baselines at or below 1/2, per the claim). -/
theorem req_antitone_baseline (b1 b2 m pw sg : ℝ) (hb2 : 0 < b2)
    (h21 : b2 ≤ b1) (hbh : b1 ≤ (0.5 : ℝ)) (hm : 0 < m) :
    calculateRequiredSampleSize b1 m pw sg ≤
      calculateRequiredSampleSize b2 m pw sg := by
  simp only [calculateRequiredSampleSize]
  apply Int.ceil_le_ceil
  have hb1 : 0 < b1 := lt_of_lt_of_le hb2 h21
  set S := normalInverseCDFcore (1 - sg / 2) + normalInverseCDFcore pw with hS
  have hS2 : (0:ℝ) ≤ S ^ 2 := sq_nonneg S
  have hd1 : (0:ℝ) < (b1 * (1 + m) - b1) ^ 2 := by
    have h : b1 * (1 + m) - b1 = b1 * m := by ring
    rw [h]
    exact pow_pos (mul_pos hb1 hm) 2
  have hd2 : (0:ℝ) < (b2 * (1 + m) - b2) ^ 2 := by
    have h : b2 * (1 + m) - b2 = b2 * m := by ring
    rw [h]
    exact pow_pos (mul_pos hb2 hm) 2
  rw [div_le_div_iff hd1 hd2]
  nlinarith [mul_nonneg (mul_nonneg (mul_nonneg (mul_nonneg
    (mul_nonneg hS2 (sq_nonneg m)) (by linarith : (0:ℝ) ≤ 1 + m / 2))
    hb1.le) hb2.le) (sub_nonneg.mpr h21)]

/-- The required sample size does not decrease when the power grows (powers
in `[1/2, 1)`, significance in `(0, 1)`, valid rates). -/
theorem req_mono_power (b m pw1 pw2 sg : ℝ) (hb : 0 < b) (hm : 0 < m)
    (hup : b * (1 + m) ≤ 1) (hsg0 : 0 < sg) (hsg1 : sg < 1)
    (hp1 : (0.5 : ℝ) ≤ pw1) (hp12 : pw1 ≤ pw2) (hp2 : pw2 < 1) :
    calculateRequiredSampleSize b m pw1 sg ≤
      calculateRequiredSampleSize b m pw2 sg := by
  simp only [calculateRequiredSampleSize]
  apply Int.ceil_le_ceil
  have hzA : 0 ≤ normalInverseCDFcore (1 - sg / 2) :=
    core_nonneg_ge_half _ (by norm_num; linarith) (by linarith)
  have hzB1 : 0 ≤ normalInverseCDFcore pw1 :=
    core_nonneg_ge_half _ hp1 (lt_of_le_of_lt hp12 hp2)
  have hzB : normalInverseCDFcore pw1 ≤ normalInverseCDFcore pw2 :=
    core_monotone_ge_half _ _ hp1 hp12 hp2
  have hbm : (0:ℝ) ≤ b * m := mul_nonneg hb.le hm.le
  have hpb : (0:ℝ) ≤ (b + b * (1 + m)) / 2 := by nlinarith
  have h1pb : (0:ℝ) ≤ 1 - (b + b * (1 + m)) / 2 := by nlinarith
  have hK : (0:ℝ) ≤ 2 * ((b + b * (1 + m)) / 2) * (1 - (b + b * (1 + m)) / 2) := by
    nlinarith [mul_nonneg hpb h1pb]
  have hd : (0:ℝ) < (b * (1 + m) - b) ^ 2 := by
    have h : b * (1 + m) - b = b * m := by ring
    rw [h]
    exact pow_pos (mul_pos hb hm) 2
  apply (div_le_div_right hd).mpr
  have hSle : (normalInverseCDFcore (1 - sg / 2) + normalInverseCDFcore pw1) ^ 2 ≤
      (normalInverseCDFcore (1 - sg / 2) + normalInverseCDFcore pw2) ^ 2 :=
    pow_le_pow_left₀ (by linarith) (by linarith) 2
  exact mul_le_mul_of_nonneg_left hSle hK

/-- The required sample size does not decrease when the significance level
shrinks (significances in `(0, 1)`, power in `[1/2, 1)`, valid rates). -/
theorem req_antitone_sig (b m pw sg1 sg2 : ℝ) (hb : 0 < b) (hm : 0 < m)
    (hup : b * (1 + m) ≤ 1) (hp1 : (0.5 : ℝ) ≤ pw) (hp2 : pw < 1)
    (hs2 : 0 < sg2) (hs21 : sg2 ≤ sg1) (hs1 : sg1 < 1) :
    calculateRequiredSampleSize b m pw sg1 ≤
      calculateRequiredSampleSize b m pw sg2 := by
  simp only [calculateRequiredSampleSize]
  apply Int.ceil_le_ceil
  have hzB : 0 ≤ normalInverseCDFcore pw := core_nonneg_ge_half _ hp1 hp2
  have hzA1 : 0 ≤ normalInverseCDFcore (1 - sg1 / 2) :=
    core_nonneg_ge_half _ (by norm_num; linarith) (by linarith)
  have hzA : normalInverseCDFcore (1 - sg1 / 2) ≤
      normalInverseCDFcore (1 - sg2 / 2) :=
    core_monotone_ge_half _ _ (by norm_num; linarith) (by linarith) (by linarith)
  have hbm : (0:ℝ) ≤ b * m := mul_nonneg hb.le hm.le
  have hpb : (0:ℝ) ≤ (b + b * (1 + m)) / 2 := by nlinarith
  have h1pb : (0:ℝ) ≤ 1 - (b + b * (1 + m)) / 2 := by nlinarith
  have hK : (0:ℝ) ≤ 2 * ((b + b * (1 + m)) / 2) * (1 - (b + b * (1 + m)) / 2) := by
    nlinarith [mul_nonneg hpb h1pb]
  have hd : (0:ℝ) < (b * (1 + m) - b) ^ 2 := by
    have h : b * (1 + m) - b = b * m := by ring
    rw [h]
    exact pow_pos (mul_pos hb hm) 2
  apply (div_le_div_right hd).mpr
  have hSle : (normalInverseCDFcore (1 - sg1 / 2) + normalInverseCDFcore pw) ^ 2 ≤
      (normalInverseCDFcore (1 - sg2 / 2) + normalInverseCDFcore pw) ^ 2 :=
    pow_le_pow_left₀ (by linarith) (by linarith) 2
  exact mul_le_mul_of_nonneg_left hSle hK

/-- Counterexample to C9 as stated: with baseline 0.03, MDE 0.05 and
significance 0.05 held fixed, raising the power from 0.0243 to 0.0249 (both
inside the central branch of the inverse-CDF approximation) makes the result
drop from 4 to 1: at such small powers `zBeta ≈ -1.97` nearly cancels
`zAlpha ≈ 1.96`, and `(zAlpha+zBeta)²` shrinks as the power grows, so the
claimed unconditional "result increases as power increases" is false. -/
theorem c9_counterexample :
    calculateRequiredSampleSize 0.03 0.05 0.0249 0.05 <
      calculateRequiredSampleSize 0.03 0.05 0.0243 0.05 := by
  have hcA : normalInverseCDFcore (1 - 0.05 / 2) = nicCentral (1 - 0.05 / 2) :=
    core_eq_central _ (by norm_num) (by norm_num)
  have hc1 : normalInverseCDFcore 0.0243 = nicCentral 0.0243 := by
    rw [normalInverseCDFcore,
      if_neg (show ¬ (0.0243 : ℝ) < pLow by simp only [pLow, not_lt]; norm_num),
      if_pos (show (0.0243 : ℝ) ≤ pHigh by simp only [pHigh, pLow]; norm_num)]
  have hc2 : normalInverseCDFcore 0.0249 = nicCentral 0.0249 := by
    rw [normalInverseCDFcore,
      if_neg (show ¬ (0.0249 : ℝ) < pLow by simp only [pLow, not_lt]; norm_num),
      if_pos (show (0.0249 : ℝ) ≤ pHigh by simp only [pHigh, pLow]; norm_num)]
  simp only [calculateRequiredSampleSize, hcA, hc1, hc2]
  have h1 : (⌈(2 * ((0.03 + 0.03 * (1 + 0.05)) / 2) *
      (1 - (0.03 + 0.03 * (1 + 0.05)) / 2) *
      (nicCentral (1 - 0.05 / 2) + nicCentral 0.0249) ^ 2) /
      ((0.03 : ℝ) * (1 + 0.05) - 0.03) ^ 2⌉ : ℤ) ≤ 1 := by
    apply Int.ceil_le.mpr
    push_cast
    rw [div_le_iff (by norm_num)]
    simp only [nicCentral, nicCentralNum, nicCentralDen]
    norm_num
  have h2 : (3 : ℤ) < ⌈(2 * ((0.03 + 0.03 * (1 + 0.05)) / 2) *
      (1 - (0.03 + 0.03 * (1 + 0.05)) / 2) *
      (nicCentral (1 - 0.05 / 2) + nicCentral 0.0243) ^ 2) /
      ((0.03 : ℝ) * (1 + 0.05) - 0.03) ^ 2⌉ := by
    apply Int.lt_ceil.mpr
    push_cast
    rw [lt_div_iff (by norm_num)]
    simp only [nicCentral, nicCentralNum, nicCentralDen]
    norm_num
  omega

/-- C9 as amended: `calculateRequiredSampleSize` is monotone on the
statistically meaningful domain — baseline and MDE positive with
`baseline·(1+MDE) ≤ 1` (rates stay in `[0,1]`), power in `[1/2, 1)`,
significance in `(0, 1)`: the result does not decrease as the relative MDE
decreases, as the baseline decreases (baselines at or below 1/2), as the
power increases, or as the significance level decreases, the other arguments
held fixed.  Outside this domain monotonicity fails
(see the counterexample). -/
theorem c9_monotone_on_domain :
    (∀ b m1 m2 pw sg : ℝ, 0 < b → 0 < m1 → m1 ≤ m2 → b * (1 + m2) ≤ 1 →
      calculateRequiredSampleSize b m2 pw sg ≤
        calculateRequiredSampleSize b m1 pw sg) ∧
    (∀ b1 b2 m pw sg : ℝ, 0 < b2 → b2 ≤ b1 → b1 ≤ (0.5 : ℝ) → 0 < m →
      calculateRequiredSampleSize b1 m pw sg ≤
        calculateRequiredSampleSize b2 m pw sg) ∧
    (∀ b m pw1 pw2 sg : ℝ, 0 < b → 0 < m → b * (1 + m) ≤ 1 → 0 < sg →
      sg < 1 → (0.5 : ℝ) ≤ pw1 → pw1 ≤ pw2 → pw2 < 1 →
      calculateRequiredSampleSize b m pw1 sg ≤
        calculateRequiredSampleSize b m pw2 sg) ∧
    (∀ b m pw sg1 sg2 : ℝ, 0 < b → 0 < m → b * (1 + m) ≤ 1 →
      (0.5 : ℝ) ≤ pw → pw < 1 → 0 < sg2 → sg2 ≤ sg1 → sg1 < 1 →
      calculateRequiredSampleSize b m pw sg1 ≤
        calculateRequiredSampleSize b m pw sg2) := by
  refine ⟨?_, ?_, ?_, ?_⟩
  · intro b m1 m2 pw sg hb hm1 h12 hup
    exact req_antitone_mde b m1 m2 pw sg hb hm1 h12 hup
  · intro b1 b2 m pw sg hb2 h21 hbh hm
    exact req_antitone_baseline b1 b2 m pw sg hb2 h21 hbh hm
  · intro b m pw1 pw2 sg hb hm hup hsg0 hsg1 hp1 hp12 hp2
    exact req_mono_power b m pw1 pw2 sg hb hm hup hsg0 hsg1 hp1 hp12 hp2
  · intro b m pw sg1 sg2 hb hm hup hp1 hp2 hs2 hs21 hs1
    exact req_antitone_sig b m pw sg1 sg2 hb hm hup hp1 hp2 hs2 hs21 hs1

/-- Concrete instantiations of C9 as amended, matching the source's own test
points: halving the MDE, lowering the baseline, raising the power and
lowering the significance each do not decrease the required sample size. -/
theorem c9_witness :
    calculateRequiredSampleSize 0.03 0.1 0.8 0.05 ≤
      calculateRequiredSampleSize 0.03 0.05 0.8 0.05 ∧
    calculateRequiredSampleSize 0.05 0.1 0.8 0.05 ≤
      calculateRequiredSampleSize 0.01 0.1 0.8 0.05 ∧
    calculateRequiredSampleSize 0.03 0.1 0.8 0.05 ≤
      calculateRequiredSampleSize 0.03 0.1 0.9 0.05 ∧
    calculateRequiredSampleSize 0.03 0.1 0.8 0.05 ≤
      calculateRequiredSampleSize 0.03 0.1 0.8 0.01 := by
  refine ⟨?_, ?_, ?_, ?_⟩
  · exact c9_monotone_on_domain.1 0.03 0.05 0.1 0.8 0.05 (by norm_num)
      (by norm_num) (by norm_num) (by norm_num)
  · exact c9_monotone_on_domain.2.1 0.05 0.01 0.1 0.8 0.05 (by norm_num)
      (by norm_num) (by norm_num) (by norm_num)
  · exact c9_monotone_on_domain.2.2.1 0.03 0.1 0.8 0.9 0.05 (by norm_num)
      (by norm_num) (by norm_num) (by norm_num) (by norm_num) (by norm_num)
      (by norm_num) (by norm_num)
  · exact c9_monotone_on_domain.2.2.2 0.03 0.1 0.8 0.05 0.01 (by norm_num)
      (by norm_num) (by norm_num) (by norm_num) (by norm_num) (by norm_num)
      (by norm_num) (by norm_num)

end V1
